import Mathlib

/-!
# redisrate: a Redis-backed GCRA rate limiter

A shallow embedding of `rate.go` (package `redisrate`) and of the atomic GCRA
step it runs against the store.

Conventions of the embedding.

* Go `int`, `int64` and `time.Duration` values are integers (`Int`); a
  `time.Duration` counts nanoseconds. The one place where the 64-bit range is
  decisive, the conversion of a `float64` to a `time.Duration` in `dur`, is
  modelled with its range check.
* A `float64` is a `Float64`: a rational, an infinity or NaN. Every `float64`
  operation of `rate.go` (the product in `dur`, the quotient and the sum in
  `Duration.Seconds`) forms its result in an arithmetic `A : Arith`. With
  `Arith.binary64` the exact result is rounded to the nearest double, ties to
  even, as the machine does; with `Arith.exact` it is kept as it is, the
  idealisation in which a statement made "in exact arithmetic" is read.
* `strconv.ParseFloat` belongs to the Go standard library and is a parameter
  `pf` of everything that decodes a reply.
* A call of `AllowN` either returns the Go pair `(*Result, error)` or panics;
  both are values of `Outcome`.
* The `*Limit` argument is taken to be non-nil.
-/

namespace Redisrate

/-! ## Policy -/

/-- The constant `time.Second`, in nanoseconds. -/
def Second : Int := 1000000000

/-- The constant `time.Minute`, in nanoseconds. -/
def Minute : Int := 60 * Second

/-- The constant `time.Hour`, in nanoseconds. -/
def Hour : Int := 60 * Minute

/-- The key prefix of rate-limit entries. -/
def redisPrefix : String := "rate:"

/-- Limit rate limit. -/
structure Limit where
  Rate : Int
  Period : Int
  Burst : Int
deriving DecidableEq, Repr

/-- PerSecond per second limit. -/
def PerSecond (rate : Int) : Limit :=
  { Rate := rate, Period := Second, Burst := rate }

/-- PerMinute per min limit. -/
def PerMinute (rate : Int) : Limit :=
  { Rate := rate, Period := Minute, Burst := rate }

/-- PerHour per hour limit. -/
def PerHour (rate : Int) : Limit :=
  { Rate := rate, Period := Hour, Burst := rate }

/-! ## Values exchanged with the store -/

/-- A `float64` value. A finite value is held as a rational; the rationals a
`float64` can hold are those that `nearest64` leaves as they are. -/
inductive Float64 where
  | fin (q : ℚ)
  | posInf
  | negInf
  | nan
deriving DecidableEq

/-- A reply as the redigo client hands it over: `nil`, `int64`, `string`
(a status line), `[]byte` (a bulk string), `[]interface{}` (an array) or a
`redis.Error` value. -/
inductive Reply where
  | null
  | int (i : Int)
  | status (s : String)
  | bulk (b : String)
  | array (xs : List Reply)
  | err (msg : String)

/-- One element of the key-and-argument list `kaa` handed to the script. -/
inductive Arg where
  | str (s : String)
  | int (i : Int)
  | num (x : ℚ)
deriving DecidableEq

/-- Result result. -/
structure Result where
  Limit : Limit
  Allowed : Bool
  Remaining : Int
  RetryAfter : Int
  ResetAfter : Int
deriving DecidableEq

/-- What a call of `AllowN` does: it returns the pair `(*Result, error)`, each
component possibly nil, or it panics. -/
inductive Outcome where
  | returned (res : Option Result) (err : Option String)
  | panicked
deriving DecidableEq

/-! ## Arithmetic on `float64` -/

/-- The arithmetic in which a `float64` result is formed: `binary64` rounds as
the machine does, `exact` keeps the exact result. -/
inductive Arith where
  | exact
  | binary64
deriving DecidableEq

/-- Rounding to the nearest integer, a tie going to the even neighbour. -/
def roundHalfEven (q : ℚ) : Int :=
  if q - ⌊q⌋ < 1 / 2 then ⌊q⌋
  else if 1 / 2 < q - ⌊q⌋ then ⌊q⌋ + 1
  else if ⌊q⌋ % 2 = 0 then ⌊q⌋ else ⌊q⌋ + 1

/-- The binary exponent of the last place of the doubles around `q`: 52 places
below the leading bit, and never below that of the subnormal numbers. -/
def ulpExponent (q : ℚ) : Int := max (Int.log 2 |q| - 52) (-1074)

/-- The double nearest to `q`, ties to even, with no upper limit on the
exponent: `q` is rounded to a whole number of units in its last place. -/
def nearest64 (q : ℚ) : ℚ :=
  (roundHalfEven (q / (2 : ℚ) ^ ulpExponent q) : ℚ) * (2 : ℚ) ^ ulpExponent q

/-- The rounding of an exact result that cannot leave the range of the
doubles. -/
def Arith.round : Arith → ℚ → ℚ
  | .exact, q => q
  | .binary64, q => nearest64 q

/-- The `float64` that an exact result becomes: in `binary64` the nearest
double, or an infinity when that rounding reaches `2 ^ 1024`. -/
def Arith.result : Arith → ℚ → Float64
  | .exact, q => .fin q
  | .binary64, q =>
    if (2 : ℚ) ^ 1024 ≤ nearest64 q then .posInf
    else if nearest64 q ≤ -(2 : ℚ) ^ 1024 then .negInf
    else .fin (nearest64 q)

/-- The method `Duration.Seconds`: `sec := d / Second`, `nsec := d % Second`
(both truncating) and the result `float64(sec) + float64(nsec)/1e9`. Both
conversions are exact for an `int64` duration, the quotient and the sum are
formed in `A`, and neither can leave the range of the doubles. -/
def Seconds (A : Arith) (d : Int) : ℚ :=
  A.round ((Int.tdiv d Second : ℚ) + A.round ((Int.tmod d Second : ℚ) / 1000000000))

/-! ## Conversion of seconds to a duration -/

/-- Smallest `int64`. -/
def MinInt64 : Int := -9223372036854775808

/-- Largest `int64`. -/
def MaxInt64 : Int := 9223372036854775807

/-- Rounding toward zero. -/
def truncate (q : ℚ) : Int := if 0 ≤ q then ⌊q⌋ else ⌈q⌉

/-- The conversion `int64(f)` of a `float64`. The fractional part is dropped.
For a value outside the `int64` range, an infinity or NaN the language leaves
the result to the implementation; the amd64 compiler's result, the smallest
`int64`, is taken here. -/
def float64ToInt64 : Float64 → Int
  | .fin q => if MinInt64 ≤ truncate q ∧ truncate q ≤ MaxInt64 then truncate q else MinInt64
  | _ => MinInt64

/-- The product `f * float64(time.Second)`, formed in `A`. -/
def mulSecond (A : Arith) : Float64 → Float64
  | .fin q => A.result (q * (Second : ℚ))
  | .posInf => .posInf
  | .negInf => .negInf
  | .nan => .nan

/-- The function `dur`: `-1` stays the duration `-1`, any other number of
seconds is multiplied by `float64(time.Second)` and converted to a count of
nanoseconds. -/
def dur (A : Arith) (f : Float64) : Int :=
  if f = .fin (-1) then -1 else float64ToInt64 (mulSecond A f)

/-! ## The limiter -/

/-- The state around a limiter: the data held by the store, the number of
connections currently checked out of the pool, and the script executions sent
so far (oldest first), each with its key-and-argument list. -/
structure World (σ : Type) where
  store : σ
  inUse : Nat
  evals : List (List Arg)

/-- One execution of the script against the store, `gcra.Do(conn, kaa...)`:
from the arguments and the stored data to a reply or an error, and the stored
data afterwards. -/
abbrev Exec (σ : Type) := List Arg → σ → Except String Reply × σ

/-- The call `pool.Get()` on a pool that hands out a live connection. -/
def poolGet {σ : Type} (w : World σ) : World σ := { w with inUse := w.inUse + 1 }

/-- The call `conn.Close()`: the connection goes back to the pool. -/
def connClose {σ : Type} (w : World σ) : World σ := { w with inUse := w.inUse - 1 }

/-- The decoding part of `AllowN`, from `values := v.([]interface{})` to the
final `return`. The type assertions and the indexing panic when the reply does
not have the shape they assume; they are evaluated in the order of the source:
`values[2]`, `values[3]`, then `values[0]` and `values[1]`. -/
def decodeReply (A : Arith) (pf : String → Except String Float64) (limit : Limit) (v : Reply) :
    Outcome :=
  match v with
  | .array values =>
    match values.get? 2 with
    | some (.bulk b2) =>
      match pf b2 with
      | .error e => .returned none (some e)
      | .ok retryAfter =>
        match values.get? 3 with
        | some (.bulk b3) =>
          match pf b3 with
          | .error e => .returned none (some e)
          | .ok resetAfter =>
            match values.get? 0, values.get? 1 with
            | some (.int flag), some (.int remaining) =>
              .returned (some { Limit := limit, Allowed := flag == 0, Remaining := remaining,
                                RetryAfter := dur A retryAfter, ResetAfter := dur A resetAfter }) none
            | _, _ => .panicked
        | _ => .panicked
    | _ => .panicked
  | _ => .panicked

/-- The key-and-argument list `kaa` that `AllowN` sends with the script: the
namespaced key, burst, rate, period in seconds, and the requested units. -/
def kaa (A : Arith) (key : String) (limit : Limit) (n : Int) : List Arg :=
  [Arg.str (redisPrefix ++ key), Arg.int limit.Burst, Arg.int limit.Rate,
   Arg.num (Seconds A limit.Period), Arg.int n]

/-- AllowN reports whether n events may happen at time now. Two connections
are taken from the pool, `conn` and the one passed to `gcra.Do`; the deferred
`conn.Close()` runs on every way out, a panic included. -/
def AllowN {σ : Type} (A : Arith) (pf : String → Except String Float64) (exec : Exec σ)
    (w : World σ) (key : String) (limit : Limit) (n : Int) : Outcome × World σ :=
  let w1 := poolGet w
  let w2 := poolGet w1
  let r := exec (kaa A key limit n) w2.store
  let w3 : World σ := { w2 with store := r.2, evals := w2.evals ++ [kaa A key limit n] }
  let out := match r.1 with
    | .error e => Outcome.returned none (some e)
    | .ok v => decodeReply A pf limit v
  (out, connClose w3)

/-- Allow is shorthand for AllowN(key, 1). -/
def Allow {σ : Type} (A : Arith) (pf : String → Except String Float64) (exec : Exec σ)
    (w : World σ) (key : String) (limit : Limit) : Outcome × World σ :=
  AllowN A pf exec w key limit 1

/-! ## Stores used to evaluate the limiter on a concrete reply -/

/-- A store whose script execution answers every call with the reply `v` and
keeps no data. -/
def replyWith (v : Reply) : Exec Unit := fun _ s => (.ok v, s)

/-- A store whose script execution fails with the error `e`. -/
def failWith (e : String) : Exec Unit := fun _ s => (.error e, s)

/-- A world with no connection checked out and no script executed yet. -/
def idle {σ : Type} (s : σ) : World σ := { store := s, inUse := 0, evals := [] }

/-! ## The atomic GCRA step -/

/-- Modelled from the spec: the per-key state of section 3, which the missing
script `gcra` keeps in the store: the theoretical arrival time (seconds) and the
instant at which the entry expires. -/
structure Entry where
  tat : ℚ
  expireAt : ℚ
deriving DecidableEq

/-- Modelled from the spec: the data the missing script `gcra` works on, at
most one entry per namespaced key. -/
abbrev Store := String → Option Entry

/-- Modelled from the spec: the clamping of step 6 in section 4.2, part of the
missing script `gcra`: `x` brought into the interval from `lo` to `hi`. -/
def clamp (lo hi x : Int) : Int := max lo (min hi x)

/-- Modelled from the spec: step 2 of section 4.2, part of the missing script
`gcra`: the stored TAT of a key as a step at instant `now` reads it; an absent
or expired entry reads as `now`. -/
def readTAT (st : Store) (key : String) (now : ℚ) : ℚ :=
  match st key with
  | some e => if now < e.expireAt then e.tat else now
  | none => now

/-- Modelled from the spec: the numbers one evaluation of the missing script
`gcra` arrives at (section 4.2): the decision, the units left, the two waiting
times in seconds, and for an admitted request the TAT to store with its time to
live. -/
structure Decision where
  allowed : Bool
  remaining : Int
  retryAfter : ℚ
  resetAfter : ℚ
  newTAT : ℚ
  ttl : ℚ
deriving DecidableEq

/-- Modelled from the spec: the arithmetic of the script `gcra` that `AllowN`
executes, which is not among the sources; these are steps 1 to 7 of the spec's
section 4.2, for a stored TAT `tat` (already `now` when the key is absent) at
store time `now`, all times in seconds. Steps 1 to 5 and 7 are taken as
written; in step 7 the TAT is the one in effect after the decision. In step 6
the `TAT` of the formula is the candidate `newTAT` of step 4, the reading under
which a denied request reports `Remaining` 0 and an admitted one counts the
units left after it, as sections 4.2 and 8 and `TestAllow` say. Division is
the total division of the rationals, so `Rate = 0` gives a defined result. -/
def gcra (burst rate : Int) (period : ℚ) (n : Int) (tat now : ℚ) : Decision :=
  let emissionInterval : ℚ := period / rate
  let delayVariationTolerance : ℚ := emissionInterval * burst
  let increment : ℚ := emissionInterval * n
  let newTAT := max tat now + increment
  let allowAt := newTAT - delayVariationTolerance
  let remaining :=
    clamp 0 burst ⌊(delayVariationTolerance - (max newTAT now - now)) / emissionInterval⌋
  if allowAt ≤ now then
    { allowed := true, remaining := remaining, retryAfter := -1,
      resetAfter := max newTAT now - now, newTAT := newTAT, ttl := delayVariationTolerance }
  else
    { allowed := false, remaining := remaining, retryAfter := allowAt - now,
      resetAfter := max tat now - now, newTAT := newTAT, ttl := delayVariationTolerance }

/-- Modelled from the spec: the atomic step around `gcra`, the part of the
missing script that touches the store, run at store time `now` on the arguments
`AllowN` sends: key, burst, rate, period in seconds, requested units. It reads
the stored TAT, decides, and answers with the 4-tuple of the spec's section 6:
the denied flag (0 admitted, 1 denied), the units left, and the two times
rendered as text by `fmt`. An admitted request stores `newTAT` with an expiry
`delayVariationTolerance` seconds from `now`; a denied one leaves the store as
it is. -/
def gcraStep (fmt : ℚ → String) (now : ℚ) : Exec Store := fun args st =>
  match args with
  | [.str key, .int burst, .int rate, .num period, .int n] =>
    let d := gcra burst rate period n (readTAT st key now) now
    (.ok (.array [.int (if d.allowed then 0 else 1), .int d.remaining,
                  .bulk (fmt d.retryAfter), .bulk (fmt d.resetAfter)]),
     if d.allowed then
       Function.update st key (some { tat := d.newTAT, expireAt := now + d.ttl })
     else st)
  | _ => (.error "ERR wrong arguments for the rate limit script", st)

/-- A store with no entry at all. -/
def emptyStore : Store := fun _ => none

/-- The store after the first call of `TestAllow` at store time 0: one unit of
ten per second is taken, the TAT is 0.1 s and the entry expires at 1 s. -/
def oneTaken : Store :=
  Function.update emptyStore (redisPrefix ++ "test_id") (some { tat := 1 / 10, expireAt := 1 })

/-- The store after the first two calls of `TestAllow` at store time 0: three
units of ten per second are taken, the TAT is 0.3 s and the entry expires at
1 s. -/
def threeTaken : Store :=
  Function.update emptyStore (redisPrefix ++ "test_id") (some { tat := 3 / 10, expireAt := 1 })

/-! ## A decimal text codec for concrete evaluation -/

/-- The value of a decimal digit. -/
def digitVal (c : Char) : Option Nat :=
  if '0' ≤ c ∧ c ≤ '9' then some (c.toNat - '0'.toNat) else none

/-- Reads a run of decimal digits onto the number `acc`: how many digits were
read, the number they extend `acc` to, and the rest of the text. -/
def readDigits : List Char → Nat → Nat → Nat × Nat × List Char
  | [], cnt, acc => (cnt, acc, [])
  | c :: cs, cnt, acc =>
    match digitVal c with
    | some d => readDigits cs (cnt + 1) (acc * 10 + d)
    | none => (cnt, acc, c :: cs)

/-- The exponent part that ends a decimal literal: nothing, or `e` or `E`, an
optional sign and at least one digit. -/
def readExponent : List Char → Option Int
  | [] => some 0
  | c :: r =>
    if c = 'e' ∨ c = 'E' then
      let signed := match r with
        | '-' :: t => (true, t)
        | '+' :: t => (false, t)
        | t => (false, t)
      match readDigits signed.2 0 0 with
      | (cnt, v, []) => if cnt = 0 then none else some (if signed.1 then -(v : Int) else v)
      | _ => none
    else none

/-- The unsigned part of a decimal literal: digits with at most one point among
them, at least one digit in all, and an optional exponent part. -/
def readUnsigned (cs : List Char) : Option ℚ :=
  let whole := readDigits cs 0 0
  let frac := match whole.2.2 with
    | '.' :: t => readDigits t 0 whole.2.1
    | t => (0, whole.2.1, t)
  if whole.1 + frac.1 = 0 then none
  else
    match readExponent frac.2.2 with
    | some e => some ((frac.2.1 : ℚ) * (10 : ℚ) ^ (e - (frac.1 : Int)))
    | none => none

/-- The texts `strconv.ParseFloat` reads as an infinity or as NaN: `inf` and
`infinity` with an optional sign, and `nan`, in any mix of cases. -/
def readSpecial (cs : List Char) : Option Float64 :=
  if cs.map Char.toLower = ['n', 'a', 'n'] then some .nan
  else if cs.map Char.toLower = ['i', 'n', 'f'] ∨ cs.map Char.toLower = ['+', 'i', 'n', 'f']
      ∨ cs.map Char.toLower = ['i', 'n', 'f', 'i', 'n', 'i', 't', 'y']
      ∨ cs.map Char.toLower = ['+', 'i', 'n', 'f', 'i', 'n', 'i', 't', 'y'] then some .posInf
  else if cs.map Char.toLower = ['-', 'i', 'n', 'f']
      ∨ cs.map Char.toLower = ['-', 'i', 'n', 'f', 'i', 'n', 'i', 't', 'y'] then some .negInf
  else none

/-- The text `s` between quotation marks, as `strconv.Quote` renders a text of
printable characters without quotation marks and backslashes. -/
def quoted (s : String) : String :=
  String.singleton (Char.ofNat 34) ++ s ++ String.singleton (Char.ofNat 34)

/-- The error of `strconv.ParseFloat` for a text that is no number. -/
def syntaxError (s : String) : String :=
  "strconv.ParseFloat: parsing " ++ quoted s ++ ": invalid syntax"

/-- The error of `strconv.ParseFloat` for a number beyond the doubles. -/
def rangeError (s : String) : String :=
  "strconv.ParseFloat: parsing " ++ quoted s ++ ": value out of range"

/-- The value of a decimal literal `[+-]digits[.digits][e[+-]digits]`, or
`none` for a text that is not one. -/
def readDecimal (s : String) : Option ℚ :=
  let body := match s.toList with
    | '-' :: r => (true, r)
    | '+' :: r => (false, r)
    | r => (false, r)
  match readUnsigned body.2 with
  | some v => some (if body.1 then -v else v)
  | none => none

/-- A reader of decimal literals and of the texts for infinity and NaN, with
the result formed in `A`: in `binary64` the double nearest to the decimal
value, as `strconv.ParseFloat` returns it, or the range error when that is
beyond the doubles. The hexadecimal forms and the digit separators that
`strconv.ParseFloat` also reads are syntax errors here. It stands in for
`strconv.ParseFloat` where the limiter is evaluated on a concrete reply. -/
def decimalFloat (A : Arith) (s : String) : Except String Float64 :=
  match readDecimal s with
  | some v =>
    match A.result v with
    | .fin x => .ok (.fin x)
    | _ => .error (rangeError s)
  | none =>
    match readSpecial s.toList with
    | some f => .ok f
    | none => .error (syntaxError s)

/-- The nine digits of a count of nanoseconds below one second. -/
def nineDigits (k : Nat) : String :=
  String.mk ((List.range 9).reverse.map fun i => Char.ofNat ('0'.toNat + k / 10 ^ i % 10))

/-- A rendering of a number of seconds with nine decimals, cut off toward
zero. -/
def fixedNanos (q : ℚ) : String :=
  let k := (truncate (q * 1000000000)).natAbs
  (if q < 0 then "-" else "") ++ toString (k / 1000000000) ++ "." ++ nineDigits (k % 1000000000)

/-! ## Basic facts about `AllowN` -/

theorem AllowN_fst {σ : Type} (A : Arith) (pf : String → Except String Float64) (exec : Exec σ)
    (w : World σ) (key : String) (limit : Limit) (n : Int) :
    (AllowN A pf exec w key limit n).1 =
      match (exec (kaa A key limit n) w.store).1 with
      | .error e => Outcome.returned none (some e)
      | .ok v => decodeReply A pf limit v := rfl

theorem AllowN_store {σ : Type} (A : Arith) (pf : String → Except String Float64) (exec : Exec σ)
    (w : World σ) (key : String) (limit : Limit) (n : Int) :
    (AllowN A pf exec w key limit n).2.store = (exec (kaa A key limit n) w.store).2 := rfl

theorem AllowN_evals {σ : Type} (A : Arith) (pf : String → Except String Float64) (exec : Exec σ)
    (w : World σ) (key : String) (limit : Limit) (n : Int) :
    (AllowN A pf exec w key limit n).2.evals = w.evals ++ [kaa A key limit n] := rfl

theorem AllowN_inUse {σ : Type} (A : Arith) (pf : String → Except String Float64) (exec : Exec σ)
    (w : World σ) (key : String) (limit : Limit) (n : Int) :
    (AllowN A pf exec w key limit n).2.inUse = w.inUse + 1 := rfl

/-- A reply with the four fields in place and both number texts readable
decodes to the `Result` that carries the fields over. -/
theorem decodeReply_wellformed (A : Arith) (pf : String → Except String Float64) (limit : Limit)
    (values : List Reply) (flag remaining : Int) (b2 b3 : String) (x2 x3 : Float64)
    (h0 : values.get? 0 = some (.int flag)) (h1 : values.get? 1 = some (.int remaining))
    (h2 : values.get? 2 = some (.bulk b2)) (h3 : values.get? 3 = some (.bulk b3))
    (p2 : pf b2 = .ok x2) (p3 : pf b3 = .ok x3) :
    decodeReply A pf limit (.array values) =
      .returned (some { Limit := limit, Allowed := flag == 0, Remaining := remaining,
                        RetryAfter := dur A x2, ResetAfter := dur A x3 }) none := by
  simp only [decodeReply, h0, h1, h2, h3, p2, p3]

/-- Whatever `decodeReply` returns as a `Result` comes from a reply with the
four fields in place. -/
theorem decodeReply_returned (A : Arith) (pf : String → Except String Float64) (limit : Limit)
    (v : Reply) (res : Result) (err : Option String)
    (h : decodeReply A pf limit v = .returned (some res) err) :
    err = none ∧ ∃ values flag remaining b2 b3 x2 x3, v = .array values ∧
      values.get? 0 = some (.int flag) ∧ values.get? 1 = some (.int remaining) ∧
      values.get? 2 = some (.bulk b2) ∧ values.get? 3 = some (.bulk b3) ∧
      pf b2 = .ok x2 ∧ pf b3 = .ok x3 ∧
      res = { Limit := limit, Allowed := flag == 0, Remaining := remaining,
              RetryAfter := dur A x2, ResetAfter := dur A x3 } := by
  unfold decodeReply at h
  split at h
  · rename_i values
    split at h
    · rename_i b2 h2
      split at h
      · simp at h
      · rename_i x2 p2
        split at h
        · rename_i b3 h3
          split at h
          · simp at h
          · rename_i x3 p3
            split at h
            · rename_i flag remaining h0 h1
              simp only [Outcome.returned.injEq, Option.some.injEq] at h
              exact ⟨h.2.symm, values, flag, remaining, b2, b3, x2, x3, rfl, h0, h1, h2, h3,
                p2, p3, h.1.symm⟩
            · simp at h
        · simp at h
    · simp at h
  · simp at h

/-- A decoding ends in one of three ways: a panic, an error without a Result,
or a Result without an error. -/
theorem decodeReply_cases (A : Arith) (pf : String → Except String Float64) (limit : Limit)
    (v : Reply) :
    decodeReply A pf limit v = .panicked ∨
    (∃ e, decodeReply A pf limit v = .returned none (some e)) ∨
    (∃ res, decodeReply A pf limit v = .returned (some res) none) := by
  unfold decodeReply
  split
  · split
    · split
      · exact Or.inr (Or.inl ⟨_, rfl⟩)
      · split
        · split
          · exact Or.inr (Or.inl ⟨_, rfl⟩)
          · split
            · exact Or.inr (Or.inr ⟨_, rfl⟩)
            · exact Or.inl rfl
        · exact Or.inl rfl
    · exact Or.inl rfl
  · exact Or.inl rfl

/-! ## Rounding to a double -/

/-- A number less than half a unit away from the integer `m` rounds to `m`. -/
theorem roundHalfEven_eq (t : ℚ) (m : Int) (h : |t - m| < 1 / 2) : roundHalfEven t = m := by
  rw [abs_lt] at h
  obtain ⟨h1, h2⟩ := h
  unfold roundHalfEven
  by_cases hge : (m : ℚ) ≤ t
  · have hfl : ⌊t⌋ = m := by
      rw [Int.floor_eq_iff]
      constructor
      · exact hge
      · linarith
    rw [hfl, if_pos (by linarith)]
  · push_neg at hge
    have hfl : ⌊t⌋ = m - 1 := by
      rw [Int.floor_eq_iff]
      push_cast
      constructor <;> linarith
    rw [hfl]
    push_cast
    rw [if_neg (by linarith), if_pos (by linarith)]
    ring

theorem floor_le_roundHalfEven (t : ℚ) : ⌊t⌋ ≤ roundHalfEven t := by
  unfold roundHalfEven
  split_ifs <;> omega

theorem roundHalfEven_nonneg (t : ℚ) (h : 0 ≤ t) : 0 ≤ roundHalfEven t :=
  le_trans (Int.floor_nonneg.mpr h) (floor_le_roundHalfEven t)

/-- The exponent of the last place of a number between `2 ^ (e + 52)` and
`2 ^ (e + 53)`. -/
theorem ulpExponent_eq (q : ℚ) (e : Int) (he : -1074 ≤ e) (hlo : (2 : ℚ) ^ (e + 52) ≤ |q|)
    (hhi : |q| < (2 : ℚ) ^ (e + 53)) : ulpExponent q = e := by
  have hpos : 0 < |q| := lt_of_lt_of_le (by positivity) hlo
  have h1 : e + 52 ≤ Int.log 2 |q| := by
    rw [← Int.zpow_le_iff_le_log (by norm_num) hpos]
    exact_mod_cast hlo
  have h2 : Int.log 2 |q| < e + 53 := by
    rw [← Int.lt_zpow_iff_log_lt (by norm_num) hpos]
    exact_mod_cast hhi
  unfold ulpExponent
  omega

/-- The double nearest to `q`, from the exponent `e` of its last place and the
integer `m` nearest to `q / 2 ^ e`. -/
theorem nearest64_eq (q : ℚ) (e m : Int) (he : -1074 ≤ e) (hlo : (2 : ℚ) ^ (e + 52) ≤ |q|)
    (hhi : |q| < (2 : ℚ) ^ (e + 53)) (hm : |q / (2 : ℚ) ^ e - m| < 1 / 2) :
    nearest64 q = (m : ℚ) * (2 : ℚ) ^ e := by
  unfold nearest64
  rw [ulpExponent_eq q e he hlo hhi, roundHalfEven_eq _ m hm]

theorem nearest64_zero : nearest64 0 = 0 := by
  have h : roundHalfEven 0 = 0 := roundHalfEven_eq 0 0 (by norm_num)
  simp [nearest64, h]

theorem nearest64_nonneg (q : ℚ) (h : 0 ≤ q) : 0 ≤ nearest64 q := by
  unfold nearest64
  have h2 : (0 : ℚ) < (2 : ℚ) ^ ulpExponent q := by positivity
  have h3 : 0 ≤ roundHalfEven (q / (2 : ℚ) ^ ulpExponent q) :=
    roundHalfEven_nonneg _ (div_nonneg h h2.le)
  have h4 : (0 : ℚ) ≤ (roundHalfEven (q / (2 : ℚ) ^ ulpExponent q) : ℚ) := by exact_mod_cast h3
  exact mul_nonneg h4 h2.le

/-- A number in the range of the normal doubles does not round below that
range: rounding keeps the leading bit. -/
theorem nearest64_lower (q : ℚ) (h : (2 : ℚ) ^ (-1022 : Int) ≤ q) :
    (2 : ℚ) ^ (-1022 : Int) ≤ nearest64 q := by
  have hq : 0 < q := lt_of_lt_of_le (by positivity) h
  have habs : |q| = q := abs_of_pos hq
  have hl1 : (2 : ℚ) ^ Int.log 2 q ≤ q := by
    have := Int.zpow_log_le_self (b := 2) (r := q) (by norm_num) hq
    exact_mod_cast this
  have hl2 : (-1022 : Int) ≤ Int.log 2 q := by
    rw [← Int.zpow_le_iff_le_log (by norm_num) hq]
    exact_mod_cast h
  have he : ulpExponent q = Int.log 2 q - 52 := by
    unfold ulpExponent
    rw [habs]
    omega
  have hpow : (0 : ℚ) < (2 : ℚ) ^ (Int.log 2 q - 52) := by positivity
  have hsplit : (2 : ℚ) ^ Int.log 2 q = (2 : ℚ) ^ (52 : Int) * (2 : ℚ) ^ (Int.log 2 q - 52) := by
    rw [← zpow_add₀ (by norm_num : (2 : ℚ) ≠ 0)]
    congr 1
    omega
  have ht : ((2 ^ 52 : Int) : ℚ) ≤ q / (2 : ℚ) ^ (Int.log 2 q - 52) := by
    rw [le_div_iff₀ hpow]
    have : ((2 ^ 52 : Int) : ℚ) = (2 : ℚ) ^ (52 : Int) := by norm_num
    rw [this, ← hsplit]
    exact hl1
  have hfl : (2 ^ 52 : Int) ≤ ⌊q / (2 : ℚ) ^ (Int.log 2 q - 52)⌋ := Int.le_floor.mpr ht
  have hr : (2 ^ 52 : Int) ≤ roundHalfEven (q / (2 : ℚ) ^ (Int.log 2 q - 52)) :=
    le_trans hfl (floor_le_roundHalfEven _)
  have hrq : (2 : ℚ) ^ (52 : Int) ≤ (roundHalfEven (q / (2 : ℚ) ^ (Int.log 2 q - 52)) : ℚ) := by
    have : ((2 ^ 52 : Int) : ℚ) ≤ (roundHalfEven (q / (2 : ℚ) ^ (Int.log 2 q - 52)) : ℚ) := by
      exact_mod_cast hr
    have h52 : ((2 ^ 52 : Int) : ℚ) = (2 : ℚ) ^ (52 : Int) := by norm_num
    rw [h52] at this
    exact this
  unfold nearest64
  rw [he]
  calc (2 : ℚ) ^ (-1022 : Int) ≤ (2 : ℚ) ^ Int.log 2 q :=
        zpow_le_zpow_right₀ (by norm_num) hl2
    _ = (2 : ℚ) ^ (52 : Int) * (2 : ℚ) ^ (Int.log 2 q - 52) := hsplit
    _ ≤ (roundHalfEven (q / (2 : ℚ) ^ (Int.log 2 q - 52)) : ℚ) * (2 : ℚ) ^ (Int.log 2 q - 52) :=
        mul_le_mul_of_nonneg_right hrq hpow.le

theorem round_nonneg (A : Arith) (q : ℚ) (h : 0 ≤ q) : 0 ≤ A.round q := by
  cases A
  · exact h
  · exact nearest64_nonneg q h

theorem round_zero (A : Arith) : A.round 0 = 0 := by
  cases A
  · rfl
  · exact nearest64_zero

/-- Rounding keeps a number of at least `2 ^ (-1022)` at least that large. -/
theorem round_lower (A : Arith) (q : ℚ) (h : (2 : ℚ) ^ (-1022 : Int) ≤ q) :
    (2 : ℚ) ^ (-1022 : Int) ≤ A.round q := by
  cases A
  · exact h
  · exact nearest64_lower q h

/-- The result of an operation is the rounded number when that is within the
doubles. -/
theorem result_of_round (A : Arith) (q v : ℚ) (hv : A.round q = v)
    (h1 : v < (2 : ℚ) ^ 1024) (h2 : -(2 : ℚ) ^ 1024 < v) : A.result q = .fin v := by
  cases A
  · simp only [Arith.round] at hv
    simp [Arith.result, hv]
  · simp only [Arith.round] at hv
    simp only [Arith.result, hv]
    rw [if_neg (not_le.mpr h1), if_neg (not_le.mpr h2)]

theorem nearest64_one : nearest64 1 = 1 := by
  rw [nearest64_eq 1 (-52) 4503599627370496 (by norm_num) (by norm_num) (by norm_num)
    (by norm_num [abs_lt])]
  norm_num

theorem nearest64_neg_one : nearest64 (-1) = -1 := by
  rw [nearest64_eq (-1) (-52) (-4503599627370496) (by norm_num) (by norm_num) (by norm_num)
    (by norm_num [abs_lt])]
  norm_num

theorem nearest64_ten_billion : nearest64 10000000000 = 10000000000 := by
  rw [nearest64_eq 10000000000 (-19) 5242880000000000 (by norm_num) (by norm_num [abs_of_pos])
    (by norm_num [abs_of_pos]) (by norm_num [abs_lt])]
  norm_num

theorem nearest64_ten_to_nineteen :
    nearest64 10000000000000000000 = 10000000000000000000 := by
  rw [nearest64_eq 10000000000000000000 11 4882812500000000 (by norm_num)
    (by norm_num [abs_of_pos]) (by norm_num [abs_of_pos]) (by norm_num [abs_lt])]
  norm_num

/-- The double nearest to one tenth. -/
theorem nearest64_tenth : nearest64 (1 / 10) = 3602879701896397 / 36028797018963968 := by
  rw [nearest64_eq (1 / 10) (-56) 7205759403792794 (by norm_num) (by norm_num [abs_of_pos])
    (by norm_num [abs_of_pos]) (by norm_num [abs_lt])]
  norm_num

/-- The double nearest to three tenths. -/
theorem nearest64_three_tenths :
    nearest64 (3 / 10) = 5404319552844595 / 18014398509481984 := by
  rw [nearest64_eq (3 / 10) (-54) 5404319552844595 (by norm_num) (by norm_num [abs_of_pos])
    (by norm_num [abs_of_pos]) (by norm_num [abs_lt])]
  norm_num

/-- The double nearest to 99.3. -/
theorem nearest64_ninety_nine_three :
    nearest64 (993 / 10) = 6987616296842035 / 70368744177664 := by
  rw [nearest64_eq (993 / 10) (-46) 6987616296842035 (by norm_num) (by norm_num [abs_of_pos])
    (by norm_num [abs_of_pos]) (by norm_num [abs_lt])]
  norm_num

/-- The double nearest to one tenth, times 10^9, is the double 10^8. -/
theorem nearest64_tenth_nanos :
    nearest64 (3602879701896397 / 36028797018963968 * 1000000000) = 100000000 := by
  rw [nearest64_eq _ (-26) 6710886400000000 (by norm_num) (by norm_num [abs_of_pos])
    (by norm_num [abs_of_pos]) (by norm_num [abs_lt])]
  norm_num

/-- The double nearest to three tenths, times 10^9, is the double 3 * 10^8. -/
theorem nearest64_three_tenths_nanos :
    nearest64 (5404319552844595 / 18014398509481984 * 1000000000) = 300000000 := by
  rw [nearest64_eq _ (-24) 5033164800000000 (by norm_num) (by norm_num [abs_of_pos])
    (by norm_num [abs_of_pos]) (by norm_num [abs_lt])]
  norm_num

/-- The double nearest to 99.3, times 10^9, is the double 993 * 10^8. -/
theorem nearest64_ninety_nine_three_nanos :
    nearest64 (6987616296842035 / 70368744177664 * 1000000000) = 99300000000 := by
  rw [nearest64_eq _ (-16) 6507724800000000 (by norm_num) (by norm_num [abs_of_pos])
    (by norm_num [abs_of_pos]) (by norm_num [abs_lt])]
  norm_num

/-! ## Facts about `Duration.Seconds` -/

theorem Seconds_exact (d : Int) : Seconds .exact d = (d : ℚ) / 1000000000 := by
  have h : (d : ℚ) = ((Int.tdiv d Second * Second + Int.tmod d Second : Int) : ℚ) := by
    rw [Int.tdiv_add_tmod']
  have hS : ((Second : Int) : ℚ) = 1000000000 := by simp [Second]
  simp only [Seconds, Arith.round]
  rw [h]
  push_cast
  rw [hS]
  field_simp

theorem Seconds_zero (A : Arith) : Seconds A 0 = 0 := by
  simp [Seconds, round_zero]

theorem Seconds_Second (A : Arith) : Seconds A Second = 1 := by
  have h1 : Int.tdiv Second Second = 1 := by decide
  have h2 : Int.tmod Second Second = 0 := by decide
  simp only [Seconds, h1, h2, Int.cast_zero, Int.cast_one, zero_div, round_zero, add_zero]
  cases A
  · rfl
  · exact nearest64_one

theorem Seconds_neg_Second (A : Arith) : Seconds A (-Second) = -1 := by
  have h1 : Int.tdiv (-Second) Second = -1 := by decide
  have h2 : Int.tmod (-Second) Second = 0 := by decide
  simp only [Seconds, h1, h2, Int.cast_zero, Int.cast_neg, Int.cast_one, zero_div, round_zero,
    add_zero]
  cases A
  · rfl
  · exact nearest64_neg_one

theorem Seconds_Hour (A : Arith) : Seconds A Hour = 3600 := by
  have h1 : Int.tdiv Hour Second = 3600 := by decide
  have h2 : Int.tmod Hour Second = 0 := by decide
  simp only [Seconds, h1, h2, Int.cast_zero, Int.cast_ofNat, zero_div, round_zero, add_zero]
  cases A
  · rfl
  · show nearest64 3600 = 3600
    rw [nearest64_eq 3600 (-41) 7916483719987200 (by norm_num) (by norm_num [abs_of_pos])
      (by norm_num [abs_of_pos]) (by norm_num [abs_lt])]
    norm_num

/-- A positive duration is a positive number of seconds, in either
arithmetic. -/
theorem Seconds_pos (A : Arith) (d : Int) (hd : 0 < d) : 0 < Seconds A d := by
  have hbase : (0 : ℚ) < (2 : ℚ) ^ (-1022 : Int) := by positivity
  have hsmall : (2 : ℚ) ^ (-1022 : Int) ≤ 1 / 1000000000 := by
    calc (2 : ℚ) ^ (-1022 : Int) ≤ (2 : ℚ) ^ (-30 : Int) :=
          zpow_le_zpow_right₀ (by norm_num) (by norm_num)
      _ ≤ 1 / 1000000000 := by norm_num
  have hsec : 0 ≤ Int.tdiv d Second := Int.tdiv_nonneg hd.le (by decide)
  have hnsec : 0 ≤ Int.tmod d Second := Int.tmod_nonneg _ hd.le
  have hsum : Int.tdiv d Second * Second + Int.tmod d Second = d := Int.tdiv_add_tmod' d Second
  have hsecq : (0 : ℚ) ≤ (Int.tdiv d Second : ℚ) := by exact_mod_cast hsec
  have hnsecq : (0 : ℚ) ≤ (Int.tmod d Second : ℚ) / 1000000000 := by
    have : (0 : ℚ) ≤ (Int.tmod d Second : ℚ) := by exact_mod_cast hnsec
    positivity
  have hinner : 0 ≤ A.round ((Int.tmod d Second : ℚ) / 1000000000) := round_nonneg A _ hnsecq
  have hlow : (2 : ℚ) ^ (-1022 : Int)
      ≤ (Int.tdiv d Second : ℚ) + A.round ((Int.tmod d Second : ℚ) / 1000000000) := by
    by_cases h1 : 1 ≤ Int.tdiv d Second
    · have h1q : (1 : ℚ) ≤ (Int.tdiv d Second : ℚ) := by exact_mod_cast h1
      have : (2 : ℚ) ^ (-1022 : Int) ≤ 1 := le_trans hsmall (by norm_num)
      linarith
    · have h0 : Int.tdiv d Second = 0 := by omega
      have hn : 1 ≤ Int.tmod d Second := by
        rw [h0] at hsum
        omega
      have hnq : (1 : ℚ) ≤ (Int.tmod d Second : ℚ) := by exact_mod_cast hn
      have hx : (2 : ℚ) ^ (-1022 : Int) ≤ (Int.tmod d Second : ℚ) / 1000000000 := by
        have : (1 : ℚ) / 1000000000 ≤ (Int.tmod d Second : ℚ) / 1000000000 :=
          div_le_div_of_nonneg_right hnq (by norm_num)
        linarith
      have := round_lower A _ hx
      rw [h0]
      simpa using this
  exact lt_of_lt_of_le hbase (round_lower A _ hlow)

/-! ## Facts about `dur` -/

theorem dur_neg_one (A : Arith) : dur A (.fin (-1)) = -1 := by
  simp [dur]

theorem truncate_of_nonneg (q : ℚ) (h : 0 ≤ q) : truncate q = ⌊q⌋ := by
  simp [truncate, h]

theorem truncate_intCast (z : Int) : truncate (z : ℚ) = z := by
  unfold truncate
  split_ifs <;> simp

theorem fin_ne_neg_one (s : ℚ) (h : s ≠ -1) : (Float64.fin s = Float64.fin (-1)) = False := by
  simp only [Float64.fin.injEq, eq_iff_iff, iff_false]
  exact h

/-- The conversion of a number that is not negative never gives -1: it gives a
count that is not negative, or the smallest `int64`. -/
theorem float64ToInt64_of_nonneg (v : ℚ) (h : 0 ≤ v) :
    (0 ≤ float64ToInt64 (.fin v) ∨ float64ToInt64 (.fin v) = MinInt64) ∧
    float64ToInt64 (.fin v) ≠ -1 := by
  have hfl : (0 : Int) ≤ ⌊v⌋ := Int.floor_nonneg.mpr h
  simp only [float64ToInt64, truncate_of_nonneg v h]
  split_ifs
  · exact ⟨Or.inl hfl, by omega⟩
  · exact ⟨Or.inr rfl, by simp [MinInt64]⟩

/-- The product with `float64(time.Second)` of a number that is not negative
is not negative: a finite number that is not negative, or plus infinity. -/
theorem mulSecond_of_nonneg (A : Arith) (s : ℚ) (h : 0 ≤ s) :
    (∃ v, 0 ≤ v ∧ mulSecond A (.fin s) = .fin v) ∨ mulSecond A (.fin s) = .posInf := by
  have hS : (0 : ℚ) ≤ s * ((Second : Int) : ℚ) := by
    have : (0 : ℚ) ≤ ((Second : Int) : ℚ) := by simp [Second]
    positivity
  cases A
  · exact Or.inl ⟨_, hS, rfl⟩
  · have hn := nearest64_nonneg _ hS
    simp only [mulSecond, Arith.result]
    split_ifs with h1 h2
    · exact Or.inr rfl
    · exfalso
      have : (0 : ℚ) < (2 : ℚ) ^ 1024 := by positivity
      linarith
    · exact Or.inl ⟨_, hn, rfl⟩

/-- A number of seconds that is not negative never becomes the sentinel
duration -1. -/
theorem dur_ne_sentinel_of_nonneg (A : Arith) (s : ℚ) (hs : 0 ≤ s) : dur A (.fin s) ≠ -1 := by
  have hne : s ≠ -1 := by
    intro h
    rw [h] at hs
    norm_num at hs
  simp only [dur, fin_ne_neg_one s hne, if_false]
  rcases mulSecond_of_nonneg A s hs with ⟨v, hv, hm⟩ | hm
  · rw [hm]
    exact (float64ToInt64_of_nonneg v hv).2
  · rw [hm]
    simp [float64ToInt64, MinInt64]

/-- What `ParseFloat` made of a text never becomes the sentinel duration -1
unless it is a negative number. -/
theorem dur_ne_sentinel (A : Arith) (x : Float64) (h : ∀ s, x = .fin s → 0 ≤ s) :
    dur A x ≠ -1 := by
  cases x with
  | fin s => exact dur_ne_sentinel_of_nonneg A s (h s rfl)
  | posInf => simp [dur, mulSecond, float64ToInt64, MinInt64]
  | negInf => simp [dur, mulSecond, float64ToInt64, MinInt64]
  | nan => simp [dur, mulSecond, float64ToInt64, MinInt64]

/-- A number of seconds, not negative, whose product with 10^9 is formed below
2^63 becomes that product cut off to a whole number of nanoseconds. -/
theorem dur_of_nonneg (A : Arith) (s : ℚ) (h0 : 0 ≤ s)
    (hfit : A.round (s * 1000000000) < 9223372036854775808) :
    dur A (.fin s) = ⌊A.round (s * 1000000000)⌋ ∧ 0 ≤ dur A (.fin s) ∧ dur A (.fin s) ≠ -1 := by
  have hne : s ≠ -1 := by
    intro h
    rw [h] at h0
    norm_num at h0
  have hS : ((Second : Int) : ℚ) = 1000000000 := by simp [Second]
  have hpos : (0 : ℚ) ≤ A.round (s * 1000000000) := round_nonneg A _ (by positivity)
  have hfl0 : (0 : Int) ≤ ⌊A.round (s * 1000000000)⌋ := Int.floor_nonneg.mpr hpos
  have hfl1 : ⌊A.round (s * 1000000000)⌋ ≤ MaxInt64 := by
    have : ⌊A.round (s * 1000000000)⌋ < 9223372036854775808 := by
      rw [Int.floor_lt]
      exact_mod_cast hfit
    simp only [MaxInt64]
    omega
  have hres : A.result (s * 1000000000) = .fin (A.round (s * 1000000000)) :=
    result_of_round A _ _ rfl (lt_trans hfit (by norm_num))
      (lt_of_lt_of_le (by norm_num) hpos)
  have hval : dur A (.fin s) = ⌊A.round (s * 1000000000)⌋ := by
    simp only [dur, fin_ne_neg_one s hne, if_false, mulSecond, hS, hres, float64ToInt64,
      truncate_of_nonneg _ hpos]
    rw [if_pos]
    exact ⟨by simp only [MinInt64]; omega, hfl1⟩
  rw [hval]
  exact ⟨rfl, hfl0, by omega⟩

theorem dur_zero (A : Arith) : dur A (.fin 0) = 0 := by
  have h := (dur_of_nonneg A 0 le_rfl (by simp [round_zero])).1
  simpa [round_zero] using h

/-- A number of seconds whose product with 10^9 is formed as the whole count
`k` of nanoseconds, not negative and within the range of a duration, becomes
the duration `k`. -/
theorem dur_eq_of_nanos (A : Arith) (s : ℚ) (k : Int) (hs : 0 ≤ s)
    (hk : A.round (s * 1000000000) = (k : ℚ)) (hmax : k ≤ 9223372036854775807) :
    dur A (.fin s) = k := by
  have hlt : A.round (s * 1000000000) < 9223372036854775808 := by
    rw [hk]
    have : k < 9223372036854775808 := by omega
    exact_mod_cast this
  rw [(dur_of_nonneg A s hs hlt).1, hk, Int.floor_intCast]

/-- A number of seconds whose product with 10^9 is formed as a whole count of
nanoseconds beyond the largest duration becomes the smallest duration. -/
theorem dur_of_too_many_nanos (A : Arith) (s : ℚ) (k : Int) (hs : 0 ≤ s)
    (hk : A.round (s * 1000000000) = (k : ℚ)) (hmin : 9223372036854775807 < k) :
    dur A (.fin s) = -9223372036854775808 := by
  have hne : s ≠ -1 := by
    intro h
    rw [h] at hs
    norm_num at hs
  have hS : ((Second : Int) : ℚ) = 1000000000 := by simp [Second]
  simp only [dur, fin_ne_neg_one s hne, if_false, mulSecond, hS]
  cases A
  · simp only [Arith.round] at hk
    simp only [Arith.result, hk, float64ToInt64, truncate_intCast, MinInt64, MaxInt64]
    rw [if_neg]
    omega
  · simp only [Arith.round] at hk
    simp only [Arith.result, hk]
    split_ifs
    · simp [float64ToInt64, MinInt64]
    · simp [float64ToInt64, MinInt64]
    · simp only [float64ToInt64, truncate_intCast, MinInt64, MaxInt64]
      rw [if_neg]
      omega

theorem floor_intCast_div (a b : Int) (hb : 0 < b) : ⌊(a : ℚ) / (b : ℚ)⌋ = a / b := by
  obtain ⟨d, rfl⟩ := Int.eq_ofNat_of_zero_le hb.le
  exact Rat.floor_intCast_div_natCast a d

/-- The reset time of a cold start, `n` emission intervals, as a duration in
exact arithmetic: the whole quotient `n * Period / Rate` of nanoseconds, when
that fits. -/
theorem dur_emission_intervals (rate period n : Int) (hrate : 0 < rate) (hperiod : 0 < period)
    (hn : 0 ≤ n) (hfit : n * period / rate ≤ 9223372036854775807) :
    dur .exact (.fin (Seconds .exact period / rate * n)) = n * period / rate := by
  have hr : (0 : ℚ) < (rate : ℚ) := by exact_mod_cast hrate
  have hp : (0 : ℚ) < (period : ℚ) := by exact_mod_cast hperiod
  have hnq : (0 : ℚ) ≤ (n : ℚ) := by exact_mod_cast hn
  rw [Seconds_exact]
  have hval : (period : ℚ) / 1000000000 / rate * n * 1000000000
      = ((n * period : Int) : ℚ) / (rate : ℚ) := by
    push_cast
    field_simp
    ring
  have hs0 : (0 : ℚ) ≤ (period : ℚ) / 1000000000 / rate * n := by positivity
  have hfl : ⌊(period : ℚ) / 1000000000 / rate * n * 1000000000⌋ = n * period / rate := by
    rw [hval, floor_intCast_div _ _ hrate]
  have hlt : Arith.round .exact ((period : ℚ) / 1000000000 / rate * n * 1000000000)
      < 9223372036854775808 := by
    show (period : ℚ) / 1000000000 / rate * n * 1000000000 < 9223372036854775808
    have h1 : (period : ℚ) / 1000000000 / rate * n * 1000000000
        < (⌊(period : ℚ) / 1000000000 / rate * n * 1000000000⌋ : ℚ) + 1 :=
      Int.lt_floor_add_one _
    rw [hfl] at h1
    have h2 : ((n * period / rate : Int) : ℚ) + 1 ≤ 9223372036854775808 := by
      have : n * period / rate + 1 ≤ 9223372036854775808 := by omega
      exact_mod_cast this
    linarith
  rw [(dur_of_nonneg .exact _ hs0 hlt).1]
  exact hfl

/-! ## The decimal codec at the texts used below -/

/-- The stand-in reader returns the rounded decimal value of a literal when
that is within the doubles. -/
theorem decimalFloat_eq (A : Arith) (s : String) (v x : ℚ) (hread : readDecimal s = some v)
    (hx : A.round v = x) (h1 : x < (2 : ℚ) ^ 1024) (h2 : -(2 : ℚ) ^ 1024 < x) :
    decimalFloat A s = .ok (.fin x) := by
  simp only [decimalFloat, hread, result_of_round A v x hx h1 h2]

theorem readDecimal_neg_one : readDecimal "-1" = some (-1) := by
  simp [readDecimal, readUnsigned, readDigits, readExponent, digitVal]

theorem readDecimal_zero : readDecimal "0" = some 0 := by
  simp [readDecimal, readUnsigned, readDigits, readExponent, digitVal]

theorem readDecimal_tenth : readDecimal "0.1" = some (1 / 10) := by
  simp [readDecimal, readUnsigned, readDigits, readExponent, digitVal]

theorem readDecimal_ten_billion : readDecimal "10000000000" = some 10000000000 := by
  simp [readDecimal, readUnsigned, readDigits, readExponent, digitVal]

theorem readDecimal_neg_one_nanos : readDecimal "-1.000000000" = some (-1) := by
  simp [readDecimal, readUnsigned, readDigits, readExponent, digitVal]
  norm_num

theorem readDecimal_zero_nanos : readDecimal "0.000000000" = some 0 := by
  simp [readDecimal, readUnsigned, readDigits, readExponent, digitVal]

theorem readDecimal_tenth_nanos : readDecimal "0.100000000" = some (1 / 10) := by
  simp [readDecimal, readUnsigned, readDigits, readExponent, digitVal]
  norm_num

theorem readDecimal_three_tenths_nanos : readDecimal "0.300000000" = some (3 / 10) := by
  simp [readDecimal, readUnsigned, readDigits, readExponent, digitVal]
  norm_num

theorem readDecimal_one_nanos : readDecimal "1.000000000" = some 1 := by
  simp [readDecimal, readUnsigned, readDigits, readExponent, digitVal]
  norm_num

theorem readDecimal_ninety_nine_three_nanos : readDecimal "99.300000000" = some (993 / 10) := by
  simp [readDecimal, readUnsigned, readDigits, readExponent, digitVal]
  norm_num

theorem readDecimal_three_thousand_hours :
    readDecimal "10800000000.000000000" = some 10800000000 := by
  simp [readDecimal, readUnsigned, readDigits, readExponent, digitVal]
  norm_num

theorem decimalFloat_neg_one (A : Arith) : decimalFloat A "-1" = .ok (.fin (-1)) := by
  refine decimalFloat_eq A _ _ _ readDecimal_neg_one ?_ (by norm_num) (by norm_num)
  cases A
  · rfl
  · exact nearest64_neg_one

theorem decimalFloat_zero (A : Arith) : decimalFloat A "0" = .ok (.fin 0) :=
  decimalFloat_eq A _ _ _ readDecimal_zero (round_zero A) (by norm_num) (by norm_num)

theorem decimalFloat_ten_billion (A : Arith) :
    decimalFloat A "10000000000" = .ok (.fin 10000000000) := by
  refine decimalFloat_eq A _ _ _ readDecimal_ten_billion ?_ (by norm_num) (by norm_num)
  cases A
  · rfl
  · exact nearest64_ten_billion

/-- The text `0.1` reads as the double nearest to one tenth. -/
theorem decimalFloat_tenth :
    decimalFloat .binary64 "0.1" = .ok (.fin (3602879701896397 / 36028797018963968)) :=
  decimalFloat_eq .binary64 _ _ _ readDecimal_tenth nearest64_tenth (by norm_num) (by norm_num)

theorem decimalFloat_junk (A : Arith) : decimalFloat A "n/a" = .error (syntaxError "n/a") := by
  have h : readDecimal "n/a" = none := by
    simp [readDecimal, readUnsigned, readDigits, readExponent, digitVal]
  have hs : readSpecial "n/a".toList = none := by
    simp [readSpecial]
  simp only [decimalFloat, h, hs]

theorem decimalFloat_neg_one_nanos (A : Arith) :
    decimalFloat A "-1.000000000" = .ok (.fin (-1)) := by
  refine decimalFloat_eq A _ _ _ readDecimal_neg_one_nanos ?_ (by norm_num) (by norm_num)
  cases A
  · rfl
  · exact nearest64_neg_one

theorem decimalFloat_zero_nanos (A : Arith) : decimalFloat A "0.000000000" = .ok (.fin 0) :=
  decimalFloat_eq A _ _ _ readDecimal_zero_nanos (round_zero A) (by norm_num) (by norm_num)

theorem decimalFloat_one_nanos (A : Arith) : decimalFloat A "1.000000000" = .ok (.fin 1) := by
  refine decimalFloat_eq A _ _ _ readDecimal_one_nanos ?_ (by norm_num) (by norm_num)
  cases A
  · rfl
  · exact nearest64_one

theorem decimalFloat_exact_tenth_nanos :
    decimalFloat .exact "0.100000000" = .ok (.fin (1 / 10)) :=
  decimalFloat_eq .exact _ _ _ readDecimal_tenth_nanos rfl (by norm_num) (by norm_num)

theorem decimalFloat_exact_three_tenths :
    decimalFloat .exact "0.300000000" = .ok (.fin (3 / 10)) :=
  decimalFloat_eq .exact _ _ _ readDecimal_three_tenths_nanos rfl (by norm_num) (by norm_num)

theorem decimalFloat_exact_ninety_nine_three :
    decimalFloat .exact "99.300000000" = .ok (.fin (993 / 10)) :=
  decimalFloat_eq .exact _ _ _ readDecimal_ninety_nine_three_nanos rfl (by norm_num) (by norm_num)

theorem decimalFloat_exact_three_thousand_hours :
    decimalFloat .exact "10800000000.000000000" = .ok (.fin 10800000000) :=
  decimalFloat_eq .exact _ _ _ readDecimal_three_thousand_hours rfl (by norm_num) (by norm_num)

/-- The text `0.100000000` reads as the double nearest to one tenth. -/
theorem decimalFloat_tenth_nanos :
    decimalFloat .binary64 "0.100000000" = .ok (.fin (3602879701896397 / 36028797018963968)) :=
  decimalFloat_eq .binary64 _ _ _ readDecimal_tenth_nanos nearest64_tenth (by norm_num)
    (by norm_num)

/-- The text `0.300000000` reads as the double nearest to three tenths. -/
theorem decimalFloat_three_tenths :
    decimalFloat .binary64 "0.300000000" = .ok (.fin (5404319552844595 / 18014398509481984)) :=
  decimalFloat_eq .binary64 _ _ _ readDecimal_three_tenths_nanos nearest64_three_tenths
    (by norm_num) (by norm_num)

/-- The text `99.300000000` reads as the double nearest to 99.3. -/
theorem decimalFloat_ninety_nine_three :
    decimalFloat .binary64 "99.300000000" = .ok (.fin (6987616296842035 / 70368744177664)) :=
  decimalFloat_eq .binary64 _ _ _ readDecimal_ninety_nine_three_nanos nearest64_ninety_nine_three
    (by norm_num) (by norm_num)

theorem fixedNanos_neg_one : fixedNanos (-1) = "-1.000000000" := by
  have h : truncate ((-1 : ℚ) * 1000000000) = -1000000000 := by
    have : (-1 : ℚ) * 1000000000 = ((-1000000000 : Int) : ℚ) := by norm_num
    rw [this, truncate_intCast]
  unfold fixedNanos
  simp only [h]
  norm_num
  decide

theorem fixedNanos_zero : fixedNanos 0 = "0.000000000" := by
  have h : truncate ((0 : ℚ) * 1000000000) = 0 := by
    have : (0 : ℚ) * 1000000000 = ((0 : Int) : ℚ) := by norm_num
    rw [this, truncate_intCast]
  unfold fixedNanos
  simp only [h]
  decide

theorem fixedNanos_tenth : fixedNanos (1 / 10) = "0.100000000" := by
  have h : truncate ((1 / 10 : ℚ) * 1000000000) = 100000000 := by
    have : (1 / 10 : ℚ) * 1000000000 = ((100000000 : Int) : ℚ) := by norm_num
    rw [this, truncate_intCast]
  unfold fixedNanos
  simp only [h]
  norm_num
  decide

theorem fixedNanos_three_tenths : fixedNanos (3 / 10) = "0.300000000" := by
  have h : truncate ((3 / 10 : ℚ) * 1000000000) = 300000000 := by
    have : (3 / 10 : ℚ) * 1000000000 = ((300000000 : Int) : ℚ) := by norm_num
    rw [this, truncate_intCast]
  unfold fixedNanos
  simp only [h]
  norm_num
  decide

theorem fixedNanos_one : fixedNanos 1 = "1.000000000" := by
  have h : truncate ((1 : ℚ) * 1000000000) = 1000000000 := by
    have : (1 : ℚ) * 1000000000 = ((1000000000 : Int) : ℚ) := by norm_num
    rw [this, truncate_intCast]
  unfold fixedNanos
  simp only [h]
  decide

theorem fixedNanos_ninety_nine_three : fixedNanos (993 / 10) = "99.300000000" := by
  have h : truncate ((993 / 10 : ℚ) * 1000000000) = 99300000000 := by
    have : (993 / 10 : ℚ) * 1000000000 = ((99300000000 : Int) : ℚ) := by norm_num
    rw [this, truncate_intCast]
  unfold fixedNanos
  simp only [h]
  norm_num
  decide

theorem fixedNanos_three_thousand_hours : fixedNanos 10800000000 = "10800000000.000000000" := by
  have h : truncate ((10800000000 : ℚ) * 1000000000) = 10800000000000000000 := by
    have : (10800000000 : ℚ) * 1000000000 = ((10800000000000000000 : Int) : ℚ) := by norm_num
    rw [this, truncate_intCast]
  unfold fixedNanos
  simp only [h]
  decide

/-! ## Policy constructors -/

/-- C9: for every integer `rate`, `PerSecond`, `PerMinute` and `PerHour` return
a limit with `Rate = rate` and `Burst = rate` (so `Burst = Rate`) whose period
is one second, one minute (60 s) and one hour (3600 s) of nanoseconds; being
total functions they always return. -/
theorem per_period_constructors (rate : Int) :
    PerSecond rate = { Rate := rate, Period := 1000000000, Burst := rate } ∧
    PerMinute rate = { Rate := rate, Period := 60 * 1000000000, Burst := rate } ∧
    PerHour rate = { Rate := rate, Period := 3600 * 1000000000, Burst := rate } ∧
    (PerSecond rate).Burst = (PerSecond rate).Rate ∧
    (PerMinute rate).Burst = (PerMinute rate).Rate ∧
    (PerHour rate).Burst = (PerHour rate).Rate := by
  refine ⟨rfl, rfl, ?_, rfl, rfl, rfl⟩
  simp only [PerHour, Hour, Minute, Second]
  norm_num

/-! ## Allow -/

/-- C4: `Allow(key, limit)` is `AllowN(key, limit, 1)`: for every store
behaviour, world, key and limit both give the same outcome (Result and error)
and leave the same world, the record of executed script calls with their
arguments included. -/
theorem allow_is_allowN_one {σ : Type} (A : Arith) (pf : String → Except String Float64)
    (exec : Exec σ) (w : World σ) (key : String) (limit : Limit) :
    Allow A pf exec w key limit = AllowN A pf exec w key limit 1 ∧
    (Allow A pf exec w key limit).2.evals = w.evals ++ [kaa A key limit 1] :=
  ⟨rfl, rfl⟩

/-! ## Store failure -/

/-- C8: when the execution of the script fails with error `e`, `AllowN`
returns the nil Result together with exactly `e`, and the record of script
executions has grown by this single attempt; and no call of `AllowN`, on any
store, returns a Result together with an error. -/
theorem store_failure_propagates {σ : Type} (A : Arith) (pf : String → Except String Float64)
    (exec : Exec σ) (w : World σ) (key : String) (limit : Limit) (n : Int) (e : String)
    (hfail : (exec (kaa A key limit n) w.store).1 = .error e) :
    (AllowN A pf exec w key limit n).1 = .returned none (some e) ∧
    (AllowN A pf exec w key limit n).2.evals = w.evals ++ [kaa A key limit n] ∧
    (AllowN A pf exec w key limit n).2.store = (exec (kaa A key limit n) w.store).2 ∧
    ∀ (exec' : Exec σ) (w' : World σ) (key' : String) (limit' : Limit) (n' : Int)
      (res : Result) (err : String),
      (AllowN A pf exec' w' key' limit' n').1 ≠ .returned (some res) (some err) := by
  refine ⟨?_, rfl, rfl, ?_⟩
  · rw [AllowN_fst, hfail]
  · intro exec' w' key' limit' n' res err h
    rw [AllowN_fst] at h
    split at h
    · simp at h
    · have := (decodeReply_returned A pf limit' _ res (some err) h).1
      simp at this

/-- C8, at a store that refuses the connection: the call returns the nil
Result and that error after one attempt. -/
theorem store_failure_propagates_witness :
    (failWith "connection refused" (kaa .binary64 "test_id" (PerSecond 10) 1) (idle ()).store).1
        = .error "connection refused" ∧
    (AllowN .binary64 (decimalFloat .binary64) (failWith "connection refused") (idle ())
        "test_id" (PerSecond 10) 1).1
        = .returned none (some "connection refused") ∧
    (AllowN .binary64 (decimalFloat .binary64) (failWith "connection refused") (idle ())
        "test_id" (PerSecond 10) 1).2.evals
        = (idle ()).evals ++ [kaa .binary64 "test_id" (PerSecond 10) 1] :=
  ⟨rfl,
   (store_failure_propagates .binary64 (decimalFloat .binary64) (failWith "connection refused")
      (idle ()) "test_id" (PerSecond 10) 1 "connection refused" rfl).1,
   (store_failure_propagates .binary64 (decimalFloat .binary64) (failWith "connection refused")
      (idle ()) "test_id" (PerSecond 10) 1 "connection refused" rfl).2.1⟩

/-! ## Connections -/

/-- C10: what the code does with the pool. `AllowN` takes two connections,
`conn` and the one handed to `gcra.Do`, and closes only `conn`: on every path
(Result, store error, decode error, panic) one more connection is checked out
after the call than before it, so the call is not connection-neutral. -/
theorem allowN_leaks_a_connection {σ : Type} (A : Arith) (pf : String → Except String Float64)
    (exec : Exec σ) (w : World σ) (key : String) (limit : Limit) (n : Int) :
    (AllowN A pf exec w key limit n).2.inUse = w.inUse + 1 ∧
    (AllowN A pf exec w key limit n).2.inUse ≠ w.inUse := by
  constructor
  · rfl
  · show w.inUse + 1 + 1 - 1 ≠ w.inUse
    omega

/-! ## Remaining -/

/-- The double nearest to one tenth of a second becomes 100 ms. -/
theorem dur_tenth : dur .binary64 (.fin (3602879701896397 / 36028797018963968)) = 100000000 :=
  dur_eq_of_nanos .binary64 _ 100000000 (by norm_num)
    (by rw [show ((100000000 : Int) : ℚ) = 100000000 by norm_num]; exact nearest64_tenth_nanos)
    (by decide)

/-- C6, as the code has it: a Result returned by `AllowN` carries in
`Remaining` the integer of the reply's second field unchanged, so `Remaining`
lies between 0 and the burst exactly when the reported integer does; `AllowN`
does no clamping of its own. -/
theorem remaining_is_reported_value {σ : Type} (A : Arith) (pf : String → Except String Float64)
    (exec : Exec σ) (w : World σ) (key : String) (limit : Limit) (n : Int) (res : Result)
    (h : (AllowN A pf exec w key limit n).1 = .returned (some res) none) :
    ∃ values flag reported,
      (exec (kaa A key limit n) w.store).1 = .ok (.array values) ∧
      values.get? 0 = some (.int flag) ∧ values.get? 1 = some (.int reported) ∧
      res.Remaining = reported ∧
      ((0 ≤ res.Remaining ∧ res.Remaining ≤ limit.Burst) ↔ (0 ≤ reported ∧ reported ≤ limit.Burst)) := by
  rw [AllowN_fst] at h
  split at h
  · simp at h
  · rename_i v hv
    obtain ⟨-, values, flag, remaining, b2, b3, x2, x3, rfl, h0, h1, -, -, -, -, hres⟩ :=
      decodeReply_returned A pf limit v res none h
    refine ⟨values, flag, remaining, hv, h0, h1, ?_, ?_⟩ <;> simp [hres]

/-- C6, on the first call of `TestAllow` answered with the reply
`[0, 9, "-1", "0.1"]`: the Result carries the reported 9. -/
theorem remaining_is_reported_value_witness :
    (AllowN .binary64 (decimalFloat .binary64)
        (replyWith (.array [.int 0, .int 9, .bulk "-1", .bulk "0.1"])) (idle ())
        "test_id" (PerSecond 10) 1).1
      = .returned (some { Limit := PerSecond 10, Allowed := true, Remaining := 9,
                          RetryAfter := -1, ResetAfter := 100000000 }) none ∧
    ∃ values flag reported,
      (replyWith (.array [.int 0, .int 9, .bulk "-1", .bulk "0.1"])
          (kaa .binary64 "test_id" (PerSecond 10) 1) (idle ()).store).1 = .ok (.array values) ∧
      values.get? 0 = some (.int flag) ∧ values.get? 1 = some (.int reported) ∧
      (9 : Int) = reported ∧
      ((0 ≤ (9 : Int) ∧ (9 : Int) ≤ (PerSecond 10).Burst) ↔
        (0 ≤ reported ∧ reported ≤ (PerSecond 10).Burst)) :=
  have h : (AllowN .binary64 (decimalFloat .binary64)
      (replyWith (.array [.int 0, .int 9, .bulk "-1", .bulk "0.1"]))
      (idle ()) "test_id" (PerSecond 10) 1).1
      = .returned (some { Limit := PerSecond 10, Allowed := true, Remaining := 9,
                          RetryAfter := -1, ResetAfter := 100000000 }) none := by
    have h := decodeReply_wellformed .binary64 (decimalFloat .binary64) (PerSecond 10)
      [.int 0, .int 9, .bulk "-1", .bulk "0.1"] 0 9 "-1" "0.1" _ _ rfl rfl rfl rfl
      (decimalFloat_neg_one .binary64) decimalFloat_tenth
    rw [dur_neg_one, dur_tenth] at h
    exact h
  ⟨h, remaining_is_reported_value .binary64 (decimalFloat .binary64) _ (idle ()) "test_id"
    (PerSecond 10) 1 _ h⟩

/-- C6 fails as stated: a reply reporting -5 gives a Result with
`Remaining = -5`, below 0, and a reply reporting 11 against a burst of 10 gives
`Remaining = 11`, above the burst. -/
theorem remaining_not_clamped :
    (AllowN .binary64 (decimalFloat .binary64)
        (replyWith (.array [.int 0, .int (-5), .bulk "-1", .bulk "0"])) (idle ())
        "test_id" (PerSecond 10) 1).1
      = .returned (some { Limit := PerSecond 10, Allowed := true, Remaining := -5,
                          RetryAfter := -1, ResetAfter := 0 }) none ∧
    ¬ (0 ≤ (-5 : Int)) ∧
    (AllowN .binary64 (decimalFloat .binary64)
        (replyWith (.array [.int 0, .int 11, .bulk "-1", .bulk "0"])) (idle ())
        "test_id" (PerSecond 10) 1).1
      = .returned (some { Limit := PerSecond 10, Allowed := true, Remaining := 11,
                          RetryAfter := -1, ResetAfter := 0 }) none ∧
    ¬ ((11 : Int) ≤ (PerSecond 10).Burst) := by
  refine ⟨?_, by decide, ?_, by decide⟩
  · have h := decodeReply_wellformed .binary64 (decimalFloat .binary64) (PerSecond 10)
      [.int 0, .int (-5), .bulk "-1", .bulk "0"] 0 (-5) "-1" "0" _ _ rfl rfl rfl rfl
      (decimalFloat_neg_one .binary64) (decimalFloat_zero .binary64)
    rw [dur_neg_one, dur_zero] at h
    exact h
  · have h := decodeReply_wellformed .binary64 (decimalFloat .binary64) (PerSecond 10)
      [.int 0, .int 11, .bulk "-1", .bulk "0"] 0 11 "-1" "0" _ _ rfl rfl rfl rfl
      (decimalFloat_neg_one .binary64) (decimalFloat_zero .binary64)
    rw [dur_neg_one, dur_zero] at h
    exact h

/-! ## Malformed replies -/

/-- C5, as the code has it: on a reply `v` of the script, `AllowN` returns the
nil Result with a decoding error `e` exactly when `v` is an array whose element
2 is a byte string that `ParseFloat` rejects with `e`, or whose element 2 is a
readable byte string and whose element 3 is a byte string that `ParseFloat`
rejects with `e`. A reply that is not an array, and an array whose element 2 is
missing or is not a byte string, make `AllowN` panic. A Result is returned
exactly when elements 0 and 1 are integers and elements 2 and 3 are readable
byte strings; every reply that yields neither an error nor a Result makes
`AllowN` panic. -/
theorem decode_error_exactly_on_unreadable_text {σ : Type} (A : Arith)
    (pf : String → Except String Float64)
    (exec : Exec σ) (w : World σ) (key : String) (limit : Limit) (n : Int) (v : Reply)
    (hreply : (exec (kaa A key limit n) w.store).1 = .ok v) :
    (∀ e, (AllowN A pf exec w key limit n).1 = .returned none (some e) ↔
      ∃ values b2, v = .array values ∧ values.get? 2 = some (.bulk b2) ∧
        (pf b2 = .error e ∨
          ∃ x2 b3, pf b2 = .ok x2 ∧ values.get? 3 = some (.bulk b3) ∧ pf b3 = .error e)) ∧
    ((∀ values, v ≠ .array values) → (AllowN A pf exec w key limit n).1 = .panicked) ∧
    (∀ values, v = .array values → (∀ b2, values.get? 2 ≠ some (.bulk b2)) →
      (AllowN A pf exec w key limit n).1 = .panicked) ∧
    (∀ res, (AllowN A pf exec w key limit n).1 = .returned (some res) none ↔
      ∃ values flag remaining b2 b3 x2 x3, v = .array values ∧
        values.get? 0 = some (.int flag) ∧ values.get? 1 = some (.int remaining) ∧
        values.get? 2 = some (.bulk b2) ∧ values.get? 3 = some (.bulk b3) ∧
        pf b2 = .ok x2 ∧ pf b3 = .ok x3 ∧
        res = { Limit := limit, Allowed := flag == 0, Remaining := remaining,
                RetryAfter := dur A x2, ResetAfter := dur A x3 }) ∧
    ((AllowN A pf exec w key limit n).1 = .panicked ↔
      (¬ ∃ e, (AllowN A pf exec w key limit n).1 = .returned none (some e)) ∧
      (¬ ∃ res, (AllowN A pf exec w key limit n).1 = .returned (some res) none)) := by
  rw [AllowN_fst, hreply]
  refine ⟨fun e => ⟨fun h => ?_, ?_⟩, fun hv => ?_, ?_, fun res => ⟨fun h => ?_, ?_⟩, ?_⟩
  rotate_left 4
  · exact (decodeReply_returned A pf limit v res none h).2
  · rintro ⟨values, flag, remaining, b2, b3, x2, x3, rfl, h0, h1, h2, h3, p2, p3, rfl⟩
    exact decodeReply_wellformed A pf limit values flag remaining b2 b3 x2 x3 h0 h1 h2 h3 p2 p3
  · simp only
    constructor
    · intro hp
      rw [hp]
      simp
    · rintro ⟨hne, hnr⟩
      rcases decodeReply_cases A pf limit v with hp | he | hr
      · exact hp
      · exact absurd he hne
      · exact absurd hr hnr
  · simp only at h
    unfold decodeReply at h
    split at h
    · rename_i values
      split at h
      · rename_i b2 h2
        split at h
        · rename_i e' p2
          simp only [Outcome.returned.injEq, Option.some.injEq, true_and] at h
          exact ⟨values, b2, rfl, h2, Or.inl (h ▸ p2)⟩
        · rename_i x2 p2
          split at h
          · rename_i b3 h3
            split at h
            · rename_i e' p3
              simp only [Outcome.returned.injEq, Option.some.injEq, true_and] at h
              exact ⟨values, b2, rfl, h2, Or.inr ⟨x2, b3, p2, h3, h ▸ p3⟩⟩
            · split at h <;> simp at h
          · simp at h
      · simp at h
    · simp at h
  · rintro ⟨values, b2, rfl, h2, hp | ⟨x2, b3, p2, h3, p3⟩⟩
    · simp only [decodeReply, h2, hp]
    · simp only [decodeReply, h2, p2, h3, p3]
  · simp only
    unfold decodeReply
    split
    · rename_i values
      exact absurd rfl (hv values)
    · rfl
  · rintro values rfl h2
    simp only [decodeReply]

/-- C5, on a reply whose retry field is the text `n/a`: the call returns the
reader's error and no Result. -/
theorem decode_error_exactly_on_unreadable_text_witness :
    (replyWith (.array [.int 1, .int 0, .bulk "n/a", .bulk "0"])
        (kaa .binary64 "test_id" (PerSecond 10) 1) (idle ()).store).1
      = .ok (.array [.int 1, .int 0, .bulk "n/a", .bulk "0"]) ∧
    (AllowN .binary64 (decimalFloat .binary64)
        (replyWith (.array [.int 1, .int 0, .bulk "n/a", .bulk "0"])) (idle ())
        "test_id" (PerSecond 10) 1).1
      = .returned none (some (syntaxError "n/a")) :=
  ⟨rfl,
   ((decode_error_exactly_on_unreadable_text .binary64 (decimalFloat .binary64)
      (replyWith (.array [.int 1, .int 0, .bulk "n/a", .bulk "0"])) (idle ()) "test_id"
      (PerSecond 10) 1 _ rfl).1 (syntaxError "n/a")).mpr
     ⟨_, "n/a", rfl, rfl, Or.inl (decimalFloat_junk .binary64)⟩⟩

/-- C5 fails as stated: a reply that is not an array (the integer 0), an array
of only two elements, and an array whose elements 2 and 3 are integers instead
of number texts each make `AllowN` panic; no error is returned. -/
theorem malformed_reply_panics :
    (AllowN .binary64 (decimalFloat .binary64) (replyWith (.int 0)) (idle ()) "test_id"
        (PerSecond 10) 1).1 = .panicked ∧
    (AllowN .binary64 (decimalFloat .binary64) (replyWith (.array [.int 0, .int 9])) (idle ())
        "test_id" (PerSecond 10) 1).1 = .panicked ∧
    (AllowN .binary64 (decimalFloat .binary64)
        (replyWith (.array [.int 0, .int 9, .int (-1), .int 0])) (idle ())
        "test_id" (PerSecond 10) 1).1 = .panicked :=
  ⟨rfl, rfl, rfl⟩

/-! ## The no-wait sentinel -/

/-- What `AllowN` makes of the retry field of a well-formed reply that reads
as the number `s`: the Result carries `RetryAfter = dur s`. For `s = -1` this
is the duration -1 (one nanosecond below zero: neither minus one second nor 0).
For `s ≥ 0` whose product with 10^9, formed in the arithmetic `A`, is below
2^63, it is that product cut off to a whole number of nanoseconds, not negative
and never the sentinel; for `s = 0` it is 0. -/
theorem retryAfter_within_range {σ : Type} (A : Arith) (pf : String → Except String Float64)
    (exec : Exec σ) (w : World σ) (key : String) (limit : Limit) (n : Int)
    (values : List Reply) (flag remaining : Int) (b2 b3 : String) (s : ℚ) (x3 : Float64)
    (hreply : (exec (kaa A key limit n) w.store).1 = .ok (.array values))
    (h0 : values.get? 0 = some (.int flag)) (h1 : values.get? 1 = some (.int remaining))
    (h2 : values.get? 2 = some (.bulk b2)) (h3 : values.get? 3 = some (.bulk b3))
    (p2 : pf b2 = .ok (.fin s)) (p3 : pf b3 = .ok x3) :
    (AllowN A pf exec w key limit n).1 =
      .returned (some { Limit := limit, Allowed := flag == 0, Remaining := remaining,
                        RetryAfter := dur A (.fin s), ResetAfter := dur A x3 }) none ∧
    (s = -1 → dur A (.fin s) = -1 ∧ dur A (.fin s) ≠ -Second ∧ dur A (.fin s) ≠ 0) ∧
    (0 ≤ s → A.round (s * 1000000000) < 9223372036854775808 →
      dur A (.fin s) = ⌊A.round (s * 1000000000)⌋ ∧ 0 ≤ dur A (.fin s) ∧ dur A (.fin s) ≠ -1) ∧
    (s = 0 → dur A (.fin s) = 0) := by
  refine ⟨?_, ?_, dur_of_nonneg A s, ?_⟩
  · rw [AllowN_fst, hreply]
    exact decodeReply_wellformed A pf limit values flag remaining b2 b3 _ _ h0 h1 h2 h3 p2 p3
  · rintro rfl
    rw [dur_neg_one]
    simp [Second]
  · rintro rfl
    exact dur_zero A

/-- The double 10^10, a number of seconds, becomes the smallest duration: its
product with 10^9 is the double 10^19, beyond the largest `int64`. -/
theorem dur_ten_billion : dur .binary64 (.fin 10000000000) = -9223372036854775808 :=
  dur_of_too_many_nanos .binary64 10000000000 10000000000000000000 (by norm_num)
    (by
      show nearest64 (10000000000 * 1000000000) = ((10000000000000000000 : Int) : ℚ)
      rw [show (10000000000 : ℚ) * 1000000000 = 10000000000000000000 by norm_num,
        nearest64_ten_to_nineteen]
      norm_num)
    (by decide)

/-- C7: what the code does with a wait of 10^10 seconds. The retry text
`10000000000` reads as the double 10^10, a value at least 0, and the Result
carries the duration -9223372036854775808: the product 10^19 of `dur` is beyond
the largest `int64` and the conversion is not guarded, so `RetryAfter` is
negative where a wait of 10^10 seconds was reported. The replies with the
retry texts `-1` and `0` give the durations -1 and 0. -/
theorem retryAfter_overflows :
    (AllowN .binary64 (decimalFloat .binary64)
        (replyWith (.array [.int 1, .int 0, .bulk "10000000000", .bulk "0"]))
        (idle ()) "test_id" (PerSecond 10) 1).1
      = .returned (some { Limit := PerSecond 10, Allowed := false, Remaining := 0,
                          RetryAfter := -9223372036854775808, ResetAfter := 0 }) none ∧
    decimalFloat .binary64 "10000000000" = .ok (.fin 10000000000) ∧
    (0 : ℚ) ≤ 10000000000 ∧ ¬ (0 ≤ (-9223372036854775808 : Int)) ∧
    (AllowN .binary64 (decimalFloat .binary64)
        (replyWith (.array [.int 0, .int 9, .bulk "-1", .bulk "0"]))
        (idle ()) "test_id" (PerSecond 10) 1).1
      = .returned (some { Limit := PerSecond 10, Allowed := true, Remaining := 9,
                          RetryAfter := -1, ResetAfter := 0 }) none ∧
    (AllowN .binary64 (decimalFloat .binary64)
        (replyWith (.array [.int 1, .int 0, .bulk "0", .bulk "0"]))
        (idle ()) "test_id" (PerSecond 10) 1).1
      = .returned (some { Limit := PerSecond 10, Allowed := false, Remaining := 0,
                          RetryAfter := 0, ResetAfter := 0 }) none := by
  refine ⟨?_, decimalFloat_ten_billion .binary64, by norm_num, by decide, ?_, ?_⟩
  · have h := decodeReply_wellformed .binary64 (decimalFloat .binary64) (PerSecond 10)
      [.int 1, .int 0, .bulk "10000000000", .bulk "0"] 1 0 "10000000000" "0" _ _ rfl rfl rfl rfl
      (decimalFloat_ten_billion .binary64) (decimalFloat_zero .binary64)
    rw [dur_ten_billion, dur_zero] at h
    exact h
  · have h := decodeReply_wellformed .binary64 (decimalFloat .binary64) (PerSecond 10)
      [.int 0, .int 9, .bulk "-1", .bulk "0"] 0 9 "-1" "0" _ _ rfl rfl rfl rfl
      (decimalFloat_neg_one .binary64) (decimalFloat_zero .binary64)
    rw [dur_neg_one, dur_zero] at h
    exact h
  · have h := decodeReply_wellformed .binary64 (decimalFloat .binary64) (PerSecond 10)
      [.int 1, .int 0, .bulk "0", .bulk "0"] 1 0 "0" "0" _ _ rfl rfl rfl rfl
      (decimalFloat_zero .binary64) (decimalFloat_zero .binary64)
    rw [dur_zero] at h
    exact h

/-! ## Facts about the GCRA step -/

theorem gcraStep_kaa (A : Arith) (fmt : ℚ → String) (now : ℚ) (key : String) (limit : Limit)
    (n : Int) (st : Store) :
    gcraStep fmt now (kaa A key limit n) st =
      (.ok (.array [.int (if (gcra limit.Burst limit.Rate (Seconds A limit.Period) n
                (readTAT st (redisPrefix ++ key) now) now).allowed then 0 else 1),
          .int (gcra limit.Burst limit.Rate (Seconds A limit.Period) n
                (readTAT st (redisPrefix ++ key) now) now).remaining,
          .bulk (fmt (gcra limit.Burst limit.Rate (Seconds A limit.Period) n
                (readTAT st (redisPrefix ++ key) now) now).retryAfter),
          .bulk (fmt (gcra limit.Burst limit.Rate (Seconds A limit.Period) n
                (readTAT st (redisPrefix ++ key) now) now).resetAfter)]),
       if (gcra limit.Burst limit.Rate (Seconds A limit.Period) n
                (readTAT st (redisPrefix ++ key) now) now).allowed then
         Function.update st (redisPrefix ++ key)
           (some { tat := (gcra limit.Burst limit.Rate (Seconds A limit.Period) n
                      (readTAT st (redisPrefix ++ key) now) now).newTAT,
                   expireAt := now + (gcra limit.Burst limit.Rate (Seconds A limit.Period) n
                      (readTAT st (redisPrefix ++ key) now) now).ttl })
       else st) := rfl

/-- A denied decision of the step leaves the store as it was. -/
theorem gcraStep_denied_store (A : Arith) (fmt : ℚ → String) (now : ℚ) (key : String)
    (limit : Limit) (n : Int) (st : Store)
    (h : (gcra limit.Burst limit.Rate (Seconds A limit.Period) n
            (readTAT st (redisPrefix ++ key) now) now).allowed = false) :
    (gcraStep fmt now (kaa A key limit n) st).2 = st := by
  rw [gcraStep_kaa]
  simp [h]

/-- The outcome of `AllowN` on the GCRA step when both number texts of the
reply are readable. -/
theorem AllowN_gcraStep (A : Arith) (pf : String → Except String Float64) (fmt : ℚ → String)
    (now : ℚ) (w : World Store) (key : String) (limit : Limit) (n : Int) (x2 x3 : Float64)
    (p2 : pf (fmt (gcra limit.Burst limit.Rate (Seconds A limit.Period) n
            (readTAT w.store (redisPrefix ++ key) now) now).retryAfter) = .ok x2)
    (p3 : pf (fmt (gcra limit.Burst limit.Rate (Seconds A limit.Period) n
            (readTAT w.store (redisPrefix ++ key) now) now).resetAfter) = .ok x3) :
    (AllowN A pf (gcraStep fmt now) w key limit n).1 =
      .returned (some
        { Limit := limit
          Allowed := (gcra limit.Burst limit.Rate (Seconds A limit.Period) n
            (readTAT w.store (redisPrefix ++ key) now) now).allowed
          Remaining := (gcra limit.Burst limit.Rate (Seconds A limit.Period) n
            (readTAT w.store (redisPrefix ++ key) now) now).remaining
          RetryAfter := dur A x2
          ResetAfter := dur A x3 }) none := by
  rw [AllowN_fst, gcraStep_kaa]
  generalize gcra limit.Burst limit.Rate (Seconds A limit.Period) n
    (readTAT w.store (redisPrefix ++ key) now) now = d at p2 p3 ⊢
  simp only
  rw [decodeReply_wellformed A pf limit
    [.int (if d.allowed then 0 else 1), .int d.remaining, .bulk (fmt d.retryAfter),
      .bulk (fmt d.resetAfter)]
    (if d.allowed then 0 else 1) d.remaining _ _ x2 x3 rfl rfl rfl rfl p2 p3]
  cases d.allowed <;> simp

/-- A denied Result of `AllowN` on the GCRA step comes from a denied
decision. -/
theorem gcra_denied_of_result (A : Arith) (pf : String → Except String Float64)
    (fmt : ℚ → String) (now : ℚ) (w : World Store) (key : String) (limit : Limit) (n : Int)
    (res : Result)
    (h : (AllowN A pf (gcraStep fmt now) w key limit n).1 = .returned (some res) none)
    (hden : res.Allowed = false) :
    (gcra limit.Burst limit.Rate (Seconds A limit.Period) n
        (readTAT w.store (redisPrefix ++ key) now) now).allowed = false := by
  rw [AllowN_fst, gcraStep_kaa] at h
  simp only at h
  obtain ⟨-, values, flag, remaining, b2, b3, x2, x3, hv, h0, -, -, -, -, -, hres⟩ :=
    decodeReply_returned A pf limit _ res none h
  simp only [Reply.array.injEq] at hv
  subst hv
  simp only [List.get?_cons_zero, Option.some.injEq, Reply.int.injEq] at h0
  rw [hres] at hden
  simp only at hden
  by_contra hne
  simp only [Bool.not_eq_false] at hne
  rw [hne] at h0
  simp only [if_true] at h0
  rw [← h0] at hden
  simp at hden

/-- A Result of `AllowN` on the GCRA step carries the decision and the units
left of the step, whatever the number texts read as. -/
theorem AllowN_gcraStep_result (A : Arith) (pf : String → Except String Float64)
    (fmt : ℚ → String) (now : ℚ) (w : World Store) (key : String) (limit : Limit) (n : Int)
    (res : Result)
    (h : (AllowN A pf (gcraStep fmt now) w key limit n).1 = .returned (some res) none) :
    res.Allowed = (gcra limit.Burst limit.Rate (Seconds A limit.Period) n
        (readTAT w.store (redisPrefix ++ key) now) now).allowed ∧
    res.Remaining = (gcra limit.Burst limit.Rate (Seconds A limit.Period) n
        (readTAT w.store (redisPrefix ++ key) now) now).remaining := by
  rw [AllowN_fst, gcraStep_kaa] at h
  simp only at h
  obtain ⟨-, values, flag, remaining, b2, b3, x2, x3, hv, h0, h1, -, -, -, -, hres⟩ :=
    decodeReply_returned A pf limit _ res none h
  simp only [Reply.array.injEq] at hv
  subst hv
  simp only [List.get?_cons_zero, Option.some.injEq, Reply.int.injEq] at h0
  simp only [List.get?_cons_succ, List.get?_cons_zero, Option.some.injEq, Reply.int.injEq] at h1
  rw [hres]
  simp only
  refine ⟨?_, h1.symm⟩
  rw [← h0]
  cases (gcra limit.Burst limit.Rate (Seconds A limit.Period) n
        (readTAT w.store (redisPrefix ++ key) now) now).allowed <;> simp

/-- On the GCRA step `AllowN` never panics: the reply has the shape that the
decoding assumes. -/
theorem AllowN_gcraStep_not_panicked (A : Arith) (pf : String → Except String Float64)
    (fmt : ℚ → String) (now : ℚ) (w : World Store) (key : String) (limit : Limit) (n : Int) :
    (AllowN A pf (gcraStep fmt now) w key limit n).1 ≠ .panicked := by
  rw [AllowN_fst, gcraStep_kaa]
  simp only [decodeReply, List.get?_cons_succ, List.get?_cons_zero]
  split
  · simp
  · split <;> simp

theorem readTAT_emptyStore (key : String) (now : ℚ) : readTAT emptyStore key now = now := rfl

theorem readTAT_of_none (st : Store) (key : String) (now : ℚ) (h : st key = none) :
    readTAT st key now = now := by
  simp [readTAT, h]

theorem readTAT_oneTaken : readTAT oneTaken (redisPrefix ++ "test_id") 0 = 1 / 10 := by
  simp [readTAT, oneTaken]

theorem readTAT_threeTaken : readTAT threeTaken (redisPrefix ++ "test_id") 0 = 3 / 10 := by
  simp [readTAT, threeTaken]

/-! ## The arithmetic of a decision -/

/-- With nothing stored (`tat = now`), a positive rate and period and a request
of 1 to `burst` units, the decision admits the request, leaves `burst - n`
units, asks for no wait and resets after `n` emission intervals. -/
theorem gcra_cold (burst rate : Int) (period : ℚ) (n : Int) (now : ℚ)
    (hrate : 0 < rate) (hperiod : 0 < period) (hn1 : 1 ≤ n) (hnB : n ≤ burst) :
    (gcra burst rate period n now now).allowed = true ∧
    (gcra burst rate period n now now).remaining = burst - n ∧
    (gcra burst rate period n now now).retryAfter = -1 ∧
    (gcra burst rate period n now now).resetAfter = period / rate * n := by
  have hr : (0 : ℚ) < (rate : ℚ) := by exact_mod_cast hrate
  have hei : (0 : ℚ) < period / rate := div_pos hperiod hr
  have hnq : (0 : ℚ) ≤ (n : ℚ) := by exact_mod_cast (by omega : (0 : Int) ≤ n)
  have hinc : (0 : ℚ) ≤ period / rate * n := mul_nonneg hei.le hnq
  have hle : (n : ℚ) ≤ (burst : ℚ) := by exact_mod_cast hnB
  have hallow : max now now + period / rate * n - period / rate * burst ≤ now := by
    rw [max_self]
    have : period / rate * n ≤ period / rate * burst := mul_le_mul_of_nonneg_left hle hei.le
    linarith
  have hmax : max (max now now + period / rate * n) now - now = period / rate * n := by
    rw [max_self, max_eq_left (by linarith)]
    ring
  have hfloor : ⌊(period / rate * burst - period / rate * n) / (period / rate)⌋ = burst - n := by
    have : (period / rate * burst - period / rate * n) / (period / rate)
        = ((burst - n : Int) : ℚ) := by
      push_cast
      field_simp
      ring
    rw [this, Int.floor_intCast]
  have hclamp : clamp 0 burst (burst - n) = burst - n := by
    unfold clamp
    omega
  simp only [gcra, hallow, if_true, hmax, hfloor, hclamp, and_self]

/-- With a positive rate and period, a request of more than `burst` units is
denied whatever is stored, reports nothing left, and has a positive wait. -/
theorem gcra_over_burst (burst rate : Int) (period : ℚ) (n : Int) (tat now : ℚ)
    (hrate : 0 < rate) (hperiod : 0 < period) (hn : burst < n) :
    (gcra burst rate period n tat now).allowed = false ∧
    (gcra burst rate period n tat now).remaining = 0 ∧
    0 < (gcra burst rate period n tat now).retryAfter ∧
    (gcra burst rate period n tat now).resetAfter = max tat now - now := by
  have hr : (0 : ℚ) < (rate : ℚ) := by exact_mod_cast hrate
  have hei : (0 : ℚ) < period / rate := div_pos hperiod hr
  have hlt : (burst : ℚ) < (n : ℚ) := by exact_mod_cast hn
  have hmul : period / rate * burst < period / rate * n := mul_lt_mul_of_pos_left hlt hei
  have hge : now ≤ max tat now := le_max_right tat now
  have hdeny : ¬ (max tat now + period / rate * n - period / rate * burst ≤ now) := by
    intro h
    linarith
  have hneg : (period / rate * burst - (max (max tat now + period / rate * n) now - now))
      / (period / rate) < 0 := by
    apply div_neg_of_neg_of_pos _ hei
    have : max tat now + period / rate * n ≤ max (max tat now + period / rate * n) now :=
      le_max_left _ _
    linarith
  have hfloor : ⌊(period / rate * burst - (max (max tat now + period / rate * n) now - now))
      / (period / rate)⌋ < 0 := by
    rw [Int.floor_lt]
    exact_mod_cast hneg
  have hclamp : clamp 0 burst ⌊(period / rate * burst
      - (max (max tat now + period / rate * n) now - now)) / (period / rate)⌋ = 0 := by
    unfold clamp
    omega
  simp only [gcra, hdeny, if_false, hclamp, true_and, and_true]
  linarith

/-- The units left that a decision reports are never negative, and never more
than a non-negative burst: the clamping of step 6. -/
theorem gcra_remaining_bounds (burst rate : Int) (period : ℚ) (n : Int) (tat now : ℚ) :
    0 ≤ (gcra burst rate period n tat now).remaining ∧
    (0 ≤ burst → (gcra burst rate period n tat now).remaining ≤ burst) := by
  unfold gcra
  simp only
  split_ifs <;> simp only [clamp] <;> constructor <;> omega

/-! ## Decisions at concrete inputs -/

/-- One unit against ten per second with nothing stored: admitted, 9 left,
reset after 0.1 s. -/
theorem gcra_first_unit (A : Arith) :
    gcra (PerSecond 10).Burst (PerSecond 10).Rate (Seconds A (PerSecond 10).Period) 1
        (readTAT (idle emptyStore).store (redisPrefix ++ "test_id") 0) 0 =
      { allowed := true, remaining := 9, retryAfter := -1, resetAfter := 1 / 10,
        newTAT := 1 / 10, ttl := 1 } := by
  have hS : Seconds A (PerSecond 10).Period = 1 := Seconds_Second A
  rw [hS]
  show gcra 10 10 1 1 0 0 = _
  simp only [gcra, Int.cast_ofNat, Int.cast_one]
  norm_num [clamp]

/-- Two more units after the first one: admitted, 7 left, reset after 0.3 s. -/
theorem gcra_two_more_units (A : Arith) :
    gcra (PerSecond 10).Burst (PerSecond 10).Rate (Seconds A (PerSecond 10).Period) 2
        (readTAT oneTaken (redisPrefix ++ "test_id") 0) 0 =
      { allowed := true, remaining := 7, retryAfter := -1, resetAfter := 3 / 10,
        newTAT := 3 / 10, ttl := 1 } := by
  have hS : Seconds A (PerSecond 10).Period = 1 := Seconds_Second A
  rw [hS, readTAT_oneTaken]
  show gcra 10 10 1 2 (1 / 10) 0 = _
  simp only [gcra, Int.cast_ofNat]
  norm_num [clamp]

/-- The decision on 1000 units against ten per second after three units were
taken: denied, nothing left, 99.3 s to wait, reset after 0.3 s. -/
theorem gcra_thousand_units_after_three (A : Arith) :
    gcra (PerSecond 10).Burst (PerSecond 10).Rate (Seconds A (PerSecond 10).Period) 1000
        (readTAT threeTaken (redisPrefix ++ "test_id") 0) 0 =
      { allowed := false, remaining := 0, retryAfter := 993 / 10, resetAfter := 3 / 10,
        newTAT := 1003 / 10, ttl := 1 } := by
  have hS : Seconds A (PerSecond 10).Period = 1 := Seconds_Second A
  rw [hS, readTAT_threeTaken]
  show gcra 10 10 1 1000 (3 / 10) 0 = _
  simp only [gcra, Int.cast_ofNat]
  norm_num [clamp]

/-- The decision on 8 units against ten per second after three units were
taken, one more than the 7 that are left: denied, 0.1 s to wait, reset after
0.3 s. -/
theorem gcra_eight_units_after_three (A : Arith) :
    gcra (PerSecond 10).Burst (PerSecond 10).Rate (Seconds A (PerSecond 10).Period) 8
        (readTAT threeTaken (redisPrefix ++ "test_id") 0) 0 =
      { allowed := false, remaining := 0, retryAfter := 1 / 10, resetAfter := 3 / 10,
        newTAT := 11 / 10, ttl := 1 } := by
  have hS : Seconds A (PerSecond 10).Period = 1 := Seconds_Second A
  rw [hS, readTAT_threeTaken]
  show gcra 10 10 1 8 (3 / 10) 0 = _
  simp only [gcra, Int.cast_ofNat]
  norm_num [clamp]

/-- One unit against a burst of 2 with a period of minus one second: denied. -/
theorem gcra_negative_period_one_unit (A : Arith) :
    gcra 2 1 (Seconds A (-Second)) 1
        (readTAT (idle emptyStore).store (redisPrefix ++ "test_id") 0) 0
      = { allowed := false, remaining := 2, retryAfter := 1, resetAfter := 0, newTAT := -1,
          ttl := -2 } := by
  rw [Seconds_neg_Second A]
  show gcra 2 1 (-1) 1 0 0 = _
  simp only [gcra, Int.cast_ofNat, Int.cast_one]
  norm_num [clamp]

/-- Two units against a burst of 1 with a period of minus one second:
admitted. -/
theorem gcra_negative_period_two_units (A : Arith) :
    gcra 1 1 (Seconds A (-Second)) 2
        (readTAT (idle emptyStore).store (redisPrefix ++ "test_id") 0) 0
      = { allowed := true, remaining := 1, retryAfter := -1, resetAfter := 0, newTAT := -2,
          ttl := -1 } := by
  rw [Seconds_neg_Second A]
  show gcra 1 1 (-1) 2 0 0 = _
  simp only [gcra, Int.cast_ofNat, Int.cast_one]
  norm_num [clamp]

/-- Two units against a burst of 1 with a period of zero: admitted. -/
theorem gcra_zero_period_two_units (A : Arith) :
    gcra 1 1 (Seconds A 0) 2 (readTAT (idle emptyStore).store (redisPrefix ++ "test_id") 0) 0
      = { allowed := true, remaining := 0, retryAfter := -1, resetAfter := 0, newTAT := 0,
          ttl := 0 } := by
  rw [Seconds_zero A]
  show gcra 1 1 0 2 0 0 = _
  simp only [gcra, Int.cast_ofNat, Int.cast_one]
  norm_num [clamp]

/-- Three million units against one per hour with a burst of three million and
nothing stored: admitted, with a reset time of 10 800 000 000 s. -/
theorem gcra_three_million_units (A : Arith) :
    gcra 3000000 1 (Seconds A Hour) 3000000
        (readTAT (idle emptyStore).store (redisPrefix ++ "test_id") 0) 0
      = { allowed := true, remaining := 0, retryAfter := -1, resetAfter := 10800000000,
          newTAT := 10800000000, ttl := 10800000000 } := by
  rw [Seconds_Hour A]
  show gcra 3000000 1 3600 3000000 0 0 = _
  simp only [gcra, Int.cast_ofNat, Int.cast_one]
  norm_num [clamp]

/-- The double nearest to three tenths of a second becomes 300 ms. -/
theorem dur_three_tenths :
    dur .binary64 (.fin (5404319552844595 / 18014398509481984)) = 300000000 :=
  dur_eq_of_nanos .binary64 _ 300000000 (by norm_num)
    (by
      rw [show ((300000000 : Int) : ℚ) = 300000000 by norm_num]
      exact nearest64_three_tenths_nanos)
    (by decide)

/-- The double nearest to 99.3 seconds becomes 99.3 s of nanoseconds. -/
theorem dur_ninety_nine_three :
    dur .binary64 (.fin (6987616296842035 / 70368744177664)) = 99300000000 :=
  dur_eq_of_nanos .binary64 _ 99300000000 (by norm_num)
    (by
      rw [show ((99300000000 : Int) : ℚ) = 99300000000 by norm_num]
      exact nearest64_ninety_nine_three_nanos)
    (by decide)

theorem dur_exact_tenth : dur .exact (.fin (1 / 10)) = 100000000 :=
  dur_eq_of_nanos .exact _ 100000000 (by norm_num) (by norm_num [Arith.round]) (by decide)

theorem dur_exact_three_tenths : dur .exact (.fin (3 / 10)) = 300000000 :=
  dur_eq_of_nanos .exact _ 300000000 (by norm_num) (by norm_num [Arith.round]) (by decide)

theorem dur_exact_ninety_nine_three : dur .exact (.fin (993 / 10)) = 99300000000 :=
  dur_eq_of_nanos .exact _ 99300000000 (by norm_num) (by norm_num [Arith.round]) (by decide)

theorem dur_exact_one : dur .exact (.fin 1) = 1000000000 :=
  dur_eq_of_nanos .exact _ 1000000000 (by norm_num) (by norm_num [Arith.round]) (by decide)

theorem dur_exact_three_thousand_hours :
    dur .exact (.fin 10800000000) = -9223372036854775808 :=
  dur_of_too_many_nanos .exact _ 10800000000000000000 (by norm_num)
    (by norm_num [Arith.round]) (by decide)

/-! ## The calls of `TestAllow`, one after the other at store time 0 -/

/-- The first call of `TestAllow` leaves the store `oneTaken`. -/
theorem store_after_first_call (A : Arith) (pf : String → Except String Float64)
    (fmt : ℚ → String) (inUse : Nat) (evals : List (List Arg)) :
    (AllowN A pf (gcraStep fmt 0) { store := emptyStore, inUse := inUse, evals := evals }
        "test_id" (PerSecond 10) 1).2.store = oneTaken := by
  rw [AllowN_store, gcraStep_kaa]
  have h := gcra_first_unit A
  simp only [idle] at h
  simp only [h, if_true, zero_add]
  rfl

/-- The second call of `TestAllow` turns the store `oneTaken` into
`threeTaken`. -/
theorem store_after_second_call (A : Arith) (pf : String → Except String Float64)
    (fmt : ℚ → String) (inUse : Nat) (evals : List (List Arg)) :
    (AllowN A pf (gcraStep fmt 0) { store := oneTaken, inUse := inUse, evals := evals }
        "test_id" (PerSecond 10) 2).2.store = threeTaken := by
  rw [AllowN_store, gcraStep_kaa]
  simp only [gcra_two_more_units A, if_true, zero_add]
  unfold oneTaken threeTaken
  rw [Function.update_idem]

/-- The second call of `TestAllow`, two units right after the first one, in
exact arithmetic: admitted with 7 left and a reset after 300 ms. -/
theorem second_call_of_testAllow :
    (AllowN .exact (decimalFloat .exact) (gcraStep fixedNanos 0)
        (AllowN .exact (decimalFloat .exact) (gcraStep fixedNanos 0) (idle emptyStore) "test_id"
          (PerSecond 10) 1).2 "test_id" (PerSecond 10) 2).1
      = .returned (some { Limit := PerSecond 10, Allowed := true, Remaining := 7,
                          RetryAfter := -1, ResetAfter := 300000000 }) none := by
  have s1 : (AllowN .exact (decimalFloat .exact) (gcraStep fixedNanos 0) (idle emptyStore)
      "test_id" (PerSecond 10) 1).2.store = oneTaken := store_after_first_call _ _ _ _ _
  have h := AllowN_gcraStep .exact (decimalFloat .exact) fixedNanos 0
    (AllowN .exact (decimalFloat .exact) (gcraStep fixedNanos 0) (idle emptyStore) "test_id"
      (PerSecond 10) 1).2 "test_id" (PerSecond 10) 2 (.fin (-1)) (.fin (3 / 10))
    (by rw [s1, gcra_two_more_units, fixedNanos_neg_one, decimalFloat_neg_one_nanos])
    (by rw [s1, gcra_two_more_units, fixedNanos_three_tenths, decimalFloat_exact_three_tenths])
  rw [s1, gcra_two_more_units, dur_neg_one, dur_exact_three_tenths] at h
  exact h

/-- The three calls of `TestAllow` at one store time, in exact arithmetic with
the decimal codec: one unit is admitted with 9 left and a reset after 100 ms;
two more are admitted with 7 left and a reset after 300 ms; 1000 units are
denied with nothing left, 99.3 s to wait and the reset still after 300 ms; and
three connections stay checked out of the pool. -/
theorem testAllow_replayed :
    (AllowN .exact (decimalFloat .exact) (gcraStep fixedNanos 0) (idle emptyStore) "test_id"
        (PerSecond 10) 1).1
      = .returned (some { Limit := PerSecond 10, Allowed := true, Remaining := 9,
                          RetryAfter := -1, ResetAfter := 100000000 }) none ∧
    (AllowN .exact (decimalFloat .exact) (gcraStep fixedNanos 0)
        (AllowN .exact (decimalFloat .exact) (gcraStep fixedNanos 0) (idle emptyStore) "test_id"
          (PerSecond 10) 1).2 "test_id" (PerSecond 10) 2).1
      = .returned (some { Limit := PerSecond 10, Allowed := true, Remaining := 7,
                          RetryAfter := -1, ResetAfter := 300000000 }) none ∧
    (AllowN .exact (decimalFloat .exact) (gcraStep fixedNanos 0)
        (AllowN .exact (decimalFloat .exact) (gcraStep fixedNanos 0)
          (AllowN .exact (decimalFloat .exact) (gcraStep fixedNanos 0) (idle emptyStore)
            "test_id" (PerSecond 10) 1).2 "test_id" (PerSecond 10) 2).2 "test_id"
              (PerSecond 10) 1000).1
      = .returned (some { Limit := PerSecond 10, Allowed := false, Remaining := 0,
                          RetryAfter := 99300000000, ResetAfter := 300000000 }) none ∧
    (AllowN .exact (decimalFloat .exact) (gcraStep fixedNanos 0)
        (AllowN .exact (decimalFloat .exact) (gcraStep fixedNanos 0)
          (AllowN .exact (decimalFloat .exact) (gcraStep fixedNanos 0) (idle emptyStore)
            "test_id" (PerSecond 10) 1).2 "test_id" (PerSecond 10) 2).2 "test_id"
              (PerSecond 10) 1000).2.inUse = 3 := by
  have s1 : (AllowN .exact (decimalFloat .exact) (gcraStep fixedNanos 0) (idle emptyStore)
      "test_id" (PerSecond 10) 1).2.store = oneTaken := store_after_first_call _ _ _ _ _
  have s2 : (AllowN .exact (decimalFloat .exact) (gcraStep fixedNanos 0)
      (AllowN .exact (decimalFloat .exact) (gcraStep fixedNanos 0) (idle emptyStore) "test_id"
        (PerSecond 10) 1).2 "test_id" (PerSecond 10) 2).2.store = threeTaken := by
    rw [AllowN_store, s1]
    exact store_after_second_call .exact (decimalFloat .exact) fixedNanos 0 []
  refine ⟨?_, second_call_of_testAllow, ?_, rfl⟩
  · have h := AllowN_gcraStep .exact (decimalFloat .exact) fixedNanos 0 (idle emptyStore)
      "test_id" (PerSecond 10) 1 (.fin (-1)) (.fin (1 / 10))
      (by rw [gcra_first_unit, fixedNanos_neg_one, decimalFloat_neg_one_nanos])
      (by rw [gcra_first_unit, fixedNanos_tenth, decimalFloat_exact_tenth_nanos])
    rw [gcra_first_unit, dur_neg_one, dur_exact_tenth] at h
    exact h
  · have h := AllowN_gcraStep .exact (decimalFloat .exact) fixedNanos 0
      (AllowN .exact (decimalFloat .exact) (gcraStep fixedNanos 0)
        (AllowN .exact (decimalFloat .exact) (gcraStep fixedNanos 0) (idle emptyStore) "test_id"
          (PerSecond 10) 1).2 "test_id" (PerSecond 10) 2).2 "test_id" (PerSecond 10) 1000
      (.fin (993 / 10)) (.fin (3 / 10))
      (by rw [s2, gcra_thousand_units_after_three, fixedNanos_ninety_nine_three,
            decimalFloat_exact_ninety_nine_three])
      (by rw [s2, gcra_thousand_units_after_three, fixedNanos_three_tenths,
            decimalFloat_exact_three_tenths])
    rw [s2, gcra_thousand_units_after_three, dur_exact_ninety_nine_three,
      dur_exact_three_tenths] at h
    exact h

/-- The three calls of `TestAllow` at one store time, in the arithmetic of the
machine: the numbers 0.1, 0.3 and 99.3 of the replies are read as the nearest
doubles and multiplied as doubles, and the Results carry the same 100 ms,
300 ms and 99.3 s. -/
theorem testAllow_replayed_binary64 :
    (AllowN .binary64 (decimalFloat .binary64) (gcraStep fixedNanos 0) (idle emptyStore)
        "test_id" (PerSecond 10) 1).1
      = .returned (some { Limit := PerSecond 10, Allowed := true, Remaining := 9,
                          RetryAfter := -1, ResetAfter := 100000000 }) none ∧
    (AllowN .binary64 (decimalFloat .binary64) (gcraStep fixedNanos 0)
        (AllowN .binary64 (decimalFloat .binary64) (gcraStep fixedNanos 0) (idle emptyStore)
          "test_id" (PerSecond 10) 1).2 "test_id" (PerSecond 10) 2).1
      = .returned (some { Limit := PerSecond 10, Allowed := true, Remaining := 7,
                          RetryAfter := -1, ResetAfter := 300000000 }) none ∧
    (AllowN .binary64 (decimalFloat .binary64) (gcraStep fixedNanos 0)
        (AllowN .binary64 (decimalFloat .binary64) (gcraStep fixedNanos 0)
          (AllowN .binary64 (decimalFloat .binary64) (gcraStep fixedNanos 0) (idle emptyStore)
            "test_id" (PerSecond 10) 1).2 "test_id" (PerSecond 10) 2).2 "test_id"
              (PerSecond 10) 1000).1
      = .returned (some { Limit := PerSecond 10, Allowed := false, Remaining := 0,
                          RetryAfter := 99300000000, ResetAfter := 300000000 }) none := by
  have s1 : (AllowN .binary64 (decimalFloat .binary64) (gcraStep fixedNanos 0) (idle emptyStore)
      "test_id" (PerSecond 10) 1).2.store = oneTaken := store_after_first_call _ _ _ _ _
  have s2 : (AllowN .binary64 (decimalFloat .binary64) (gcraStep fixedNanos 0)
      (AllowN .binary64 (decimalFloat .binary64) (gcraStep fixedNanos 0) (idle emptyStore)
        "test_id" (PerSecond 10) 1).2 "test_id" (PerSecond 10) 2).2.store = threeTaken := by
    rw [AllowN_store, s1]
    exact store_after_second_call .binary64 (decimalFloat .binary64) fixedNanos 0 []
  refine ⟨?_, ?_, ?_⟩
  · have h := AllowN_gcraStep .binary64 (decimalFloat .binary64) fixedNanos 0 (idle emptyStore)
      "test_id" (PerSecond 10) 1 (.fin (-1)) _
      (by rw [gcra_first_unit, fixedNanos_neg_one, decimalFloat_neg_one_nanos])
      (by rw [gcra_first_unit, fixedNanos_tenth, decimalFloat_tenth_nanos])
    rw [gcra_first_unit, dur_neg_one, dur_tenth] at h
    exact h
  · have h := AllowN_gcraStep .binary64 (decimalFloat .binary64) fixedNanos 0
      (AllowN .binary64 (decimalFloat .binary64) (gcraStep fixedNanos 0) (idle emptyStore)
        "test_id" (PerSecond 10) 1).2 "test_id" (PerSecond 10) 2 (.fin (-1)) _
      (by rw [s1, gcra_two_more_units, fixedNanos_neg_one, decimalFloat_neg_one_nanos])
      (by rw [s1, gcra_two_more_units, fixedNanos_three_tenths, decimalFloat_three_tenths])
    rw [s1, gcra_two_more_units, dur_neg_one, dur_three_tenths] at h
    exact h
  · have h := AllowN_gcraStep .binary64 (decimalFloat .binary64) fixedNanos 0
      (AllowN .binary64 (decimalFloat .binary64) (gcraStep fixedNanos 0)
        (AllowN .binary64 (decimalFloat .binary64) (gcraStep fixedNanos 0) (idle emptyStore)
          "test_id" (PerSecond 10) 1).2 "test_id" (PerSecond 10) 2).2 "test_id"
      (PerSecond 10) 1000 _ _
      (by rw [s2, gcra_thousand_units_after_three, fixedNanos_ninety_nine_three,
            decimalFloat_ninety_nine_three])
      (by rw [s2, gcra_thousand_units_after_three, fixedNanos_three_tenths,
            decimalFloat_three_tenths])
    rw [s2, gcra_thousand_units_after_three, dur_ninety_nine_three, dur_three_tenths] at h
    exact h

/-! ## Denied calls -/

/-- C1: on the GCRA step, a call of `AllowN` that returns a Result with
`Allowed = false` leaves the store as it was, the entry of the key with its TAT
and expiry included, so that the same call issued again at the same store time
returns the same Result. -/
theorem denied_call_keeps_state (A : Arith) (pf : String → Except String Float64)
    (fmt : ℚ → String) (now : ℚ) (w : World Store) (key : String) (limit : Limit) (n : Int)
    (res : Result)
    (h : (AllowN A pf (gcraStep fmt now) w key limit n).1 = .returned (some res) none)
    (hden : res.Allowed = false) :
    (AllowN A pf (gcraStep fmt now) w key limit n).2.store = w.store ∧
    (AllowN A pf (gcraStep fmt now) w key limit n).2.store (redisPrefix ++ key)
      = w.store (redisPrefix ++ key) ∧
    (AllowN A pf (gcraStep fmt now) (AllowN A pf (gcraStep fmt now) w key limit n).2
        key limit n).1
      = .returned (some res) none := by
  have hd := gcra_denied_of_result A pf fmt now w key limit n res h hden
  have hs : (AllowN A pf (gcraStep fmt now) w key limit n).2.store = w.store := by
    rw [AllowN_store]
    exact gcraStep_denied_store A fmt now key limit n w.store hd
  refine ⟨hs, by rw [hs], ?_⟩
  rw [AllowN_fst] at h ⊢
  rw [hs]
  exact h

/-- C1, on a key whose entry holds a TAT of 0.3 s and an expiry at 1 s (three
of ten units taken): a call for 8 units, one more than the 7 left, is denied
with 100 ms to wait; after it the entry still holds the TAT 0.3 s and the
expiry 1 s, and the same call issued again returns the same Result. -/
theorem denied_call_keeps_state_witness :
    (idle threeTaken).store (redisPrefix ++ "test_id") = some { tat := 3 / 10, expireAt := 1 } ∧
    (AllowN .binary64 (decimalFloat .binary64) (gcraStep fixedNanos 0) (idle threeTaken)
        "test_id" (PerSecond 10) 8).1
      = .returned (some { Limit := PerSecond 10, Allowed := false, Remaining := 0,
                          RetryAfter := 100000000, ResetAfter := 300000000 }) none ∧
    (AllowN .binary64 (decimalFloat .binary64) (gcraStep fixedNanos 0) (idle threeTaken)
        "test_id" (PerSecond 10) 8).2.store (redisPrefix ++ "test_id")
      = some { tat := 3 / 10, expireAt := 1 } ∧
    (AllowN .binary64 (decimalFloat .binary64) (gcraStep fixedNanos 0) (idle threeTaken)
        "test_id" (PerSecond 10) 8).2.store = threeTaken ∧
    (AllowN .binary64 (decimalFloat .binary64) (gcraStep fixedNanos 0)
        (AllowN .binary64 (decimalFloat .binary64) (gcraStep fixedNanos 0) (idle threeTaken)
          "test_id" (PerSecond 10) 8).2 "test_id" (PerSecond 10) 8).1
      = .returned (some { Limit := PerSecond 10, Allowed := false, Remaining := 0,
                          RetryAfter := 100000000, ResetAfter := 300000000 }) none :=
  have hstored : (idle threeTaken).store (redisPrefix ++ "test_id")
      = some { tat := 3 / 10, expireAt := 1 } := by
    simp [idle, threeTaken]
  have h : (AllowN .binary64 (decimalFloat .binary64) (gcraStep fixedNanos 0) (idle threeTaken)
      "test_id" (PerSecond 10) 8).1
      = .returned (some { Limit := PerSecond 10, Allowed := false, Remaining := 0,
                          RetryAfter := 100000000, ResetAfter := 300000000 }) none := by
    have hg := gcra_eight_units_after_three .binary64
    have h := AllowN_gcraStep .binary64 (decimalFloat .binary64) fixedNanos 0 (idle threeTaken)
      "test_id" (PerSecond 10) 8 _ _
      (by
        show decimalFloat .binary64 (fixedNanos (gcra _ _ _ 8
          (readTAT threeTaken (redisPrefix ++ "test_id") 0) 0).retryAfter) = _
        rw [hg, fixedNanos_tenth, decimalFloat_tenth_nanos])
      (by
        show decimalFloat .binary64 (fixedNanos (gcra _ _ _ 8
          (readTAT threeTaken (redisPrefix ++ "test_id") 0) 0).resetAfter) = _
        rw [hg, fixedNanos_three_tenths, decimalFloat_three_tenths])
    have hg' : gcra (PerSecond 10).Burst (PerSecond 10).Rate
        (Seconds .binary64 (PerSecond 10).Period) 8
        (readTAT (idle threeTaken).store (redisPrefix ++ "test_id") 0) 0 = _ := hg
    rw [hg', dur_tenth, dur_three_tenths] at h
    exact h
  have t := denied_call_keeps_state .binary64 (decimalFloat .binary64) fixedNanos 0
    (idle threeTaken) "test_id" (PerSecond 10) 8 _ h rfl
  ⟨hstored, h, t.2.1.trans hstored, t.1, t.2.2⟩

/-! ## Cold start -/

/-- C2, amended: on the GCRA step, for a key with nothing stored, a limit with
`Rate > 0`, `Period > 0` and `Burst ≥ 1`, a request of `1 ≤ n ≤ Burst` units
whose reset time `n * Period / Rate` fits a duration, and a reply whose two
number texts read back exactly, `AllowN` returns, in exact arithmetic, no error
and the Result with `Allowed = true`, `Remaining = Burst - n`,
`RetryAfter = -1` and `ResetAfter = n * Period / Rate` (whole nanoseconds). -/
theorem cold_start_admits (pf : String → Except String Float64) (fmt : ℚ → String) (now : ℚ)
    (w : World Store) (key : String) (limit : Limit) (n : Int)
    (hfresh : w.store (redisPrefix ++ key) = none)
    (hRate : 0 < limit.Rate) (hPeriod : 0 < limit.Period) (hBurst : 1 ≤ limit.Burst)
    (hn1 : 1 ≤ n) (hnB : n ≤ limit.Burst)
    (hfit : n * limit.Period / limit.Rate ≤ 9223372036854775807)
    (hretry : pf (fmt (-1)) = .ok (.fin (-1)))
    (hreset : pf (fmt (Seconds .exact limit.Period / limit.Rate * n))
      = .ok (.fin (Seconds .exact limit.Period / limit.Rate * n))) :
    (AllowN .exact pf (gcraStep fmt now) w key limit n).1 =
      .returned (some { Limit := limit, Allowed := true, Remaining := limit.Burst - n,
                        RetryAfter := -1, ResetAfter := n * limit.Period / limit.Rate }) none := by
  have _ := hBurst
  have hsec : (0 : ℚ) < Seconds .exact limit.Period := Seconds_pos .exact _ hPeriod
  have hT := readTAT_of_none w.store (redisPrefix ++ key) now hfresh
  obtain ⟨ha, hrem, hra, hrs⟩ :=
    gcra_cold limit.Burst limit.Rate (Seconds .exact limit.Period) n now hRate hsec hn1 hnB
  have h := AllowN_gcraStep .exact pf fmt now w key limit n (.fin (-1))
    (.fin (Seconds .exact limit.Period / limit.Rate * n))
    (by rw [hT, hra]; exact hretry) (by rw [hT, hrs]; exact hreset)
  rw [hT, ha, hrem, dur_neg_one,
    dur_emission_intervals limit.Rate limit.Period n hRate hPeriod (by omega) hfit] at h
  exact h

/-- C2, on the first call of `TestAllow`, one unit against ten per second on a
fresh key: allowed, 9 left, no wait, reset after 100 ms; and the call of two
units that follows is allowed with 7 left and a reset after 300 ms. -/
theorem cold_start_admits_witness :
    (idle emptyStore).store (redisPrefix ++ "test_id") = none ∧
    decimalFloat .exact (fixedNanos (-1)) = .ok (.fin (-1)) ∧
    (AllowN .exact (decimalFloat .exact) (gcraStep fixedNanos 0) (idle emptyStore) "test_id"
        (PerSecond 10) 1).1
      = .returned (some { Limit := PerSecond 10, Allowed := true, Remaining := 9,
                          RetryAfter := -1, ResetAfter := 100000000 }) none ∧
    (AllowN .exact (decimalFloat .exact) (gcraStep fixedNanos 0)
        (AllowN .exact (decimalFloat .exact) (gcraStep fixedNanos 0) (idle emptyStore) "test_id"
          (PerSecond 10) 1).2 "test_id" (PerSecond 10) 2).1
      = .returned (some { Limit := PerSecond 10, Allowed := true, Remaining := 7,
                          RetryAfter := -1, ResetAfter := 300000000 }) none :=
  have hretry : decimalFloat .exact (fixedNanos (-1)) = .ok (.fin (-1)) := by
    rw [fixedNanos_neg_one, decimalFloat_neg_one_nanos]
  have hval : Seconds .exact (PerSecond 10).Period / ((PerSecond 10).Rate : ℚ) * ((1 : Int) : ℚ)
      = 1 / 10 := by
    rw [show Seconds .exact (PerSecond 10).Period = 1 from Seconds_Second .exact]
    simp [PerSecond]
  ⟨rfl, hretry,
   cold_start_admits (decimalFloat .exact) fixedNanos 0 (idle emptyStore) "test_id"
     (PerSecond 10) 1 rfl
     (by decide) (by decide) (by decide) (by decide) (by decide) (by decide) hretry
     (by rw [hval, fixedNanos_tenth, decimalFloat_exact_tenth_nanos]),
   second_call_of_testAllow⟩

/-- C2 fails as stated. With `Rate = 1`, `Burst = 2` and a period of minus one
second, one unit on a fresh key is denied. With `Rate = 1`, `Burst = 3000000`
and a period of one hour, 3000000 units on a fresh key are admitted but
`ResetAfter` is -9223372036854775808, not `n * Period / Rate`, which is
10800000000000000000 nanoseconds and exceeds the largest duration. -/
theorem cold_start_fails :
    (AllowN .exact (decimalFloat .exact) (gcraStep fixedNanos 0) (idle emptyStore) "test_id"
        { Rate := 1, Period := -Second, Burst := 2 } 1).1
      = .returned (some { Limit := { Rate := 1, Period := -Second, Burst := 2 }, Allowed := false,
                          Remaining := 2, RetryAfter := 1000000000, ResetAfter := 0 }) none ∧
    (AllowN .exact (decimalFloat .exact) (gcraStep fixedNanos 0) (idle emptyStore) "test_id"
        { Rate := 1, Period := Hour, Burst := 3000000 } 3000000).1
      = .returned (some { Limit := { Rate := 1, Period := Hour, Burst := 3000000 }, Allowed := true,
                          Remaining := 0, RetryAfter := -1,
                          ResetAfter := -9223372036854775808 }) none ∧
    (-9223372036854775808 : Int) ≠ 3000000 * Hour / 1 := by
  refine ⟨?_, ?_, by decide⟩
  · have h := AllowN_gcraStep .exact (decimalFloat .exact) fixedNanos 0 (idle emptyStore)
      "test_id" { Rate := 1, Period := -Second, Burst := 2 } 1 (.fin 1) (.fin 0)
      (by rw [gcra_negative_period_one_unit, fixedNanos_one, decimalFloat_one_nanos])
      (by rw [gcra_negative_period_one_unit, fixedNanos_zero, decimalFloat_zero_nanos])
    rw [gcra_negative_period_one_unit, dur_zero, dur_exact_one] at h
    exact h
  · have h := AllowN_gcraStep .exact (decimalFloat .exact) fixedNanos 0 (idle emptyStore)
      "test_id" { Rate := 1, Period := Hour, Burst := 3000000 } 3000000 (.fin (-1))
      (.fin 10800000000)
      (by rw [gcra_three_million_units, fixedNanos_neg_one, decimalFloat_neg_one_nanos])
      (by rw [gcra_three_million_units, fixedNanos_three_thousand_hours,
            decimalFloat_exact_three_thousand_hours])
    rw [gcra_three_million_units, dur_neg_one, dur_exact_three_thousand_hours] at h
    exact h

/-! ## Requests above the burst -/

/-- C3, amended: on the GCRA step, for every key and store state, every limit
with `Rate > 0` and `Period > 0` and every `n > Burst`, in either arithmetic:
`AllowN` does not panic; every Result it returns has `Allowed = false` and
`Remaining = 0`; the wait that the step reports is a positive number, not the
sentinel -1; and whenever `ParseFloat` reads the two number texts of the reply
(as `x2` and `x3`, whatever these are) `AllowN` returns the Result with
`Allowed = false`, `Remaining = 0` and `RetryAfter = dur x2`, which is not the
sentinel -1 unless `x2` is a negative number. -/
theorem over_burst_denied (A : Arith) (pf : String → Except String Float64) (fmt : ℚ → String)
    (now : ℚ) (w : World Store) (key : String) (limit : Limit) (n : Int)
    (hRate : 0 < limit.Rate) (hPeriod : 0 < limit.Period) (hn : limit.Burst < n) :
    (AllowN A pf (gcraStep fmt now) w key limit n).1 ≠ .panicked ∧
    (∀ res, (AllowN A pf (gcraStep fmt now) w key limit n).1 = .returned (some res) none →
      res.Allowed = false ∧ res.Remaining = 0) ∧
    0 < (gcra limit.Burst limit.Rate (Seconds A limit.Period) n
        (readTAT w.store (redisPrefix ++ key) now) now).retryAfter ∧
    (∀ x2 x3,
      pf (fmt (gcra limit.Burst limit.Rate (Seconds A limit.Period) n
        (readTAT w.store (redisPrefix ++ key) now) now).retryAfter) = .ok x2 →
      pf (fmt (gcra limit.Burst limit.Rate (Seconds A limit.Period) n
        (readTAT w.store (redisPrefix ++ key) now) now).resetAfter) = .ok x3 →
      (AllowN A pf (gcraStep fmt now) w key limit n).1 =
        .returned (some { Limit := limit, Allowed := false, Remaining := 0,
                          RetryAfter := dur A x2, ResetAfter := dur A x3 }) none ∧
      ((∀ s, x2 = .fin s → 0 ≤ s) → dur A x2 ≠ -1)) := by
  have hsec : (0 : ℚ) < Seconds A limit.Period := Seconds_pos A _ hPeriod
  obtain ⟨ha, hrem, hpos, -⟩ := gcra_over_burst limit.Burst limit.Rate (Seconds A limit.Period) n
    (readTAT w.store (redisPrefix ++ key) now) now hRate hsec hn
  refine ⟨AllowN_gcraStep_not_panicked A pf fmt now w key limit n, ?_, hpos, ?_⟩
  · intro res hres
    obtain ⟨h1, h2⟩ := AllowN_gcraStep_result A pf fmt now w key limit n res hres
    rw [h1, h2, ha, hrem]
    exact ⟨rfl, rfl⟩
  · intro x2 x3 hretry hreset
    have h := AllowN_gcraStep A pf fmt now w key limit n x2 x3 hretry hreset
    rw [ha, hrem] at h
    exact ⟨h, dur_ne_sentinel A x2⟩

/-- C3, on the overflow call of `TestAllow`, 1000 units against ten per second
after three units were taken, in the arithmetic of the machine: the two texts
are read as the doubles nearest to 99.3 and 0.3, and the call is denied with
nothing left, 99.3 s to wait and a reset after 300 ms. -/
theorem over_burst_denied_witness :
    (0 : Int) < (PerSecond 10).Rate ∧ (0 : Int) < (PerSecond 10).Period ∧
    (PerSecond 10).Burst < 1000 ∧
    decimalFloat .binary64 "99.300000000" = .ok (.fin (6987616296842035 / 70368744177664)) ∧
    decimalFloat .binary64 "0.300000000" = .ok (.fin (5404319552844595 / 18014398509481984)) ∧
    (AllowN .binary64 (decimalFloat .binary64) (gcraStep fixedNanos 0) (idle threeTaken)
        "test_id" (PerSecond 10) 1000).1
      = .returned (some { Limit := PerSecond 10, Allowed := false, Remaining := 0,
                          RetryAfter := 99300000000, ResetAfter := 300000000 }) none ∧
    (99300000000 : Int) ≠ -1 := by
  have hg := gcra_thousand_units_after_three .binary64
  have hg' : gcra (PerSecond 10).Burst (PerSecond 10).Rate
      (Seconds .binary64 (PerSecond 10).Period) 1000
      (readTAT (idle threeTaken).store (redisPrefix ++ "test_id") 0) 0 = _ := hg
  have h := (over_burst_denied .binary64 (decimalFloat .binary64) fixedNanos 0 (idle threeTaken)
    "test_id" (PerSecond 10) 1000 (by decide) (by decide) (by decide)).2.2.2 _ _
    (by rw [hg', fixedNanos_ninety_nine_three, decimalFloat_ninety_nine_three])
    (by rw [hg', fixedNanos_three_tenths, decimalFloat_three_tenths])
  rw [dur_ninety_nine_three, dur_three_tenths] at h
  exact ⟨by decide, by decide, by decide, decimalFloat_ninety_nine_three,
    decimalFloat_three_tenths, h.1, by decide⟩

/-- C3 fails as stated: with `Rate = 1` and `Burst = 1`, a request of 2 units,
more than the burst, on a fresh key is admitted when the period is minus one
second, and also when the period is zero. -/
theorem over_burst_admitted :
    (AllowN .binary64 (decimalFloat .binary64) (gcraStep fixedNanos 0) (idle emptyStore)
        "test_id" { Rate := 1, Period := -Second, Burst := 1 } 2).1
      = .returned (some { Limit := { Rate := 1, Period := -Second, Burst := 1 }, Allowed := true,
                          Remaining := 1, RetryAfter := -1, ResetAfter := 0 }) none ∧
    (AllowN .binary64 (decimalFloat .binary64) (gcraStep fixedNanos 0) (idle emptyStore)
        "test_id" { Rate := 1, Period := 0, Burst := 1 } 2).1
      = .returned (some { Limit := { Rate := 1, Period := 0, Burst := 1 }, Allowed := true,
                          Remaining := 0, RetryAfter := -1, ResetAfter := 0 }) none ∧
    (0 : Int) < 1 ∧ (1 : Int) < 2 := by
  refine ⟨?_, ?_, by decide, by decide⟩
  · have h := AllowN_gcraStep .binary64 (decimalFloat .binary64) fixedNanos 0 (idle emptyStore)
      "test_id" { Rate := 1, Period := -Second, Burst := 1 } 2 (.fin (-1)) (.fin 0)
      (by rw [gcra_negative_period_two_units, fixedNanos_neg_one, decimalFloat_neg_one_nanos])
      (by rw [gcra_negative_period_two_units, fixedNanos_zero, decimalFloat_zero_nanos])
    rw [gcra_negative_period_two_units, dur_neg_one, dur_zero] at h
    exact h
  · have h := AllowN_gcraStep .binary64 (decimalFloat .binary64) fixedNanos 0 (idle emptyStore)
      "test_id" { Rate := 1, Period := 0, Burst := 1 } 2 (.fin (-1)) (.fin 0)
      (by rw [gcra_zero_period_two_units, fixedNanos_neg_one, decimalFloat_neg_one_nanos])
      (by rw [gcra_zero_period_two_units, fixedNanos_zero, decimalFloat_zero_nanos])
    rw [gcra_zero_period_two_units, dur_neg_one, dur_zero] at h
    exact h

/-! ## A call that makes the wait overflow -/

theorem fixedNanos_ten_billion : fixedNanos 10000000000 = "10000000000.000000000" := by
  have h : truncate ((10000000000 : ℚ) * 1000000000) = 10000000000000000000 := by
    have : (10000000000 : ℚ) * 1000000000 = ((10000000000000000000 : Int) : ℚ) := by norm_num
    rw [this, truncate_intCast]
  unfold fixedNanos
  simp only [h]
  decide

theorem readDecimal_ten_billion_nanos :
    readDecimal "10000000000.000000000" = some 10000000000 := by
  simp [readDecimal, readUnsigned, readDigits, readExponent, digitVal]
  norm_num

theorem decimalFloat_ten_billion_nanos :
    decimalFloat .binary64 "10000000000.000000000" = .ok (.fin 10000000000) :=
  decimalFloat_eq .binary64 _ _ _ readDecimal_ten_billion_nanos nearest64_ten_billion
    (by norm_num) (by norm_num)

/-- The decision on 10 000 000 001 units against one per second with nothing
stored: denied, with 10^10 s to wait. -/
theorem gcra_ten_billion_units (A : Arith) :
    gcra (PerSecond 1).Burst (PerSecond 1).Rate (Seconds A (PerSecond 1).Period) 10000000001
        (readTAT (idle emptyStore).store (redisPrefix ++ "test_id") 0) 0 =
      { allowed := false, remaining := 0, retryAfter := 10000000000, resetAfter := 0,
        newTAT := 10000000001, ttl := 1 } := by
  have hS : Seconds A (PerSecond 1).Period = 1 := Seconds_Second A
  rw [hS]
  show gcra 1 1 1 10000000001 0 0 = _
  simp only [gcra, Int.cast_ofNat, Int.cast_one]
  norm_num [clamp]

/-- The call `AllowN(key, PerSecond(1), 10000000001)` on a fresh key, on the
GCRA step: the step reports a wait of 10^10 s, and the Result carries the
negative duration -9223372036854775808. -/
theorem retryAfter_overflows_on_a_call :
    (AllowN .binary64 (decimalFloat .binary64) (gcraStep fixedNanos 0) (idle emptyStore)
        "test_id" (PerSecond 1) 10000000001).1
      = .returned (some { Limit := PerSecond 1, Allowed := false, Remaining := 0,
                          RetryAfter := -9223372036854775808, ResetAfter := 0 }) none := by
  have h := AllowN_gcraStep .binary64 (decimalFloat .binary64) fixedNanos 0 (idle emptyStore)
    "test_id" (PerSecond 1) 10000000001 _ _
    (by rw [gcra_ten_billion_units, fixedNanos_ten_billion, decimalFloat_ten_billion_nanos])
    (by rw [gcra_ten_billion_units, fixedNanos_zero, decimalFloat_zero_nanos])
  rw [gcra_ten_billion_units, dur_ten_billion, dur_zero] at h
  exact h


end Redisrate
